import Mathlib

/-!
Verification development for the observable state container of the
`ilniqjs-least` repository: the `Store` (src/state/store.ts), its
`SelectorCache`, and the process-wide batch scheduler (src/state/batch.ts).

The embedding is a faithful shallow translation of the TypeScript source:

* A state snapshot (`T extends object` in the source) is modelled as `Obj`,
  a flat JavaScript object with integer-valued fields kept in key insertion
  order, with no duplicate keys.
* A JavaScript `Map` (used by `SelectorCache`) is modelled as an
  insertion-ordered association list with unique keys; `Map.delete`
  followed by `Map.set` moves an entry to the end, exactly as in V8.
* Selector functions and listener callbacks are identified by numeric ids
  (the source keys them by closure identity); an `Env` record supplies the
  function each selector id denotes and whether a given listener or queued
  thunk throws when invoked.
* The mutable module-level scheduler state (`batchDepth`,
  `pendingNotifications`) together with every store's private variables is
  collected in a `Sys` record, and the source's control flow becomes a
  small-step interpreter `runCmd` over a command syntax `Cmd` that mirrors
  the public API (`setState`, `subscribe`, `select`, `destroy`, `batch`,
  `scheduleBatch`).  Observable behaviour (listener invocations, caught
  listener/thunk errors, selector invocations, diagnostics) is recorded in
  an event trace; exceptions that propagate to the caller are modelled by
  the `Option Err` component of the interpreter's result.
-/

namespace Least

/-- A state snapshot: a flat JS object with `Int`-valued fields, as an
insertion-ordered association list with unique keys. -/
abbrev Obj := List (String × Int)

/-- Does object `o` have field `k`? -/
def objHas (o : Obj) (k : String) : Bool := o.any (fun p => p.1 == k)

/-- Read field `k` of object `o`. -/
def objGet (o : Obj) (k : String) : Option Int :=
  (o.find? (fun p => p.1 == k)).map (·.2)

/-- JS object spread `{ ...a, ...b }`: the keys of `a` in their order, each
overridden by `b` where `b` has the key, followed by the keys only `b` has,
in their order. -/
def objMerge (a b : Obj) : Obj :=
  a.map (fun p => (p.1, (objGet b p.1).getD p.2)) ++
    b.filter (fun p => !objHas a p.1)

/-- `StateUpdater<T> = Partial<T> | ((prev: T) => T | Partial<T>)` from
store.ts.  The function form returns an object (the source requires
`T extends object`, and a function result that is an object is
shallow-merged just like a literal patch, lines 122-129 of store.ts). -/
inductive StateUpdater where
  | patch (p : Obj)
  | fn (f : Obj → Obj)

/-- Lines 119-129 of store.ts `setState`: resolve the updater against the
current state to the candidate next snapshot.  Both the literal-patch form
and the function-result form are spread over the current state. -/
def applyUpdater (st : Obj) : StateUpdater → Obj
  | .patch p => objMerge st p
  | .fn f => objMerge st (f st)

/-- One entry of the selector cache: `{ value, stateVersion }`
(store.ts line 26). -/
structure CacheEntry where
  value : Int
  stateVersion : Nat
deriving DecidableEq

/-- `Map.delete(k)` on an association list: removes the entry for `k`,
keeping the order of the rest. -/
def jsMapDelete (m : List (Nat × CacheEntry)) (k : Nat) :
    List (Nat × CacheEntry) :=
  m.filter (fun p => p.1 != k)

/-- `Map.set(k, v)` on an association list: updates in place when the key is
present, otherwise appends at the end (most-recently-inserted position). -/
def jsMapSet (m : List (Nat × CacheEntry)) (k : Nat) (v : CacheEntry) :
    List (Nat × CacheEntry) :=
  if m.any (fun p => p.1 == k) then
    m.map (fun p => if p.1 == k then (k, v) else p)
  else m ++ [(k, v)]

/-- The `SelectorCache<T>` class of store.ts (lines 25-63): a bounded
LRU map from selector identity to a stamped value, plus the owning store's
version counter `stateVersion`. -/
structure SelectorCache where
  cache : List (Nat × CacheEntry)
  maxSize : Nat
  stateVersion : Nat

namespace SelectorCache

/-- `SelectorCache.get` (lines 34-42): on a hit the entry is deleted and
re-inserted, moving it to the most-recently-used (last) position; the entry
is returned with no version comparison. -/
def get (c : SelectorCache) (k : Nat) : Option CacheEntry × SelectorCache :=
  match c.cache.find? (fun p => p.1 == k) with
  | some pe =>
      (some pe.2, { c with cache := jsMapSet (jsMapDelete c.cache k) k pe.2 })
  | none => (none, c)

/-- `SelectorCache.set` (lines 44-53): when at capacity, the first
(least-recently-touched) key is evicted; the new entry is stamped with the
current `stateVersion` and appended. -/
def set (c : SelectorCache) (k : Nat) (v : Int) : SelectorCache :=
  let cache1 :=
    if c.maxSize ≤ c.cache.length then
      match c.cache.head? with
      | some p => jsMapDelete c.cache p.1
      | none => c.cache
    else c.cache
  { c with cache := jsMapSet cache1 k ⟨v, c.stateVersion⟩ }

/-- `SelectorCache.invalidate` (lines 55-58): bumps the version counter and
eagerly clears every cached entry. -/
def invalidate (c : SelectorCache) : SelectorCache :=
  { c with stateVersion := c.stateVersion + 1, cache := [] }

/-- `SelectorCache.clear` (lines 60-62): drops the entries, keeping the
version counter. -/
def clear (c : SelectorCache) : SelectorCache :=
  { c with cache := [] }

end SelectorCache

/-- Errors surfaced synchronously to the caller. -/
inductive Err where
  /-- The `Error` thrown by `getState`/`subscribe`/`select` on a destroyed
  store (the spec's DestroyedAccess condition), tagged by the operation. -/
  | destroyedAccess (op : String)
  /-- An exception raised by user code (a batch body or a user thunk). -/
  | raised (code : Nat)
deriving DecidableEq

/-- The private state of one store created by `createStore` (store.ts
lines 65-74): the snapshot, the destroyed flag, the listener registry
(a JS `Set`, insertion-ordered and duplicate-free, of listener ids), the
selector cache, the pending-flush flag and the captured window-start
snapshot.  `equalityFn` is the configured equality function
(`config.equalityFn || shallowEqual`). -/
structure StoreState where
  state : Obj
  isDestroyed : Bool
  listeners : List Nat
  cache : SelectorCache
  equalityFn : Obj → Obj → Bool
  hasPendingNotify : Bool
  notifyPrevState : Option Obj

/-- Environment binding ids to behaviour: `sel` is the selector function a
selector id denotes; `listenerThrows`/`thunkThrows` say whether the callback
registered under an id throws when invoked. -/
structure Env where
  sel : Nat → Obj → Int
  listenerThrows : Nat → Bool
  thunkThrows : Nat → Bool

/-- `Set.add` for the listener registry: appends unless already present. -/
def setAdd (l : List Nat) (x : Nat) : List Nat :=
  if x ∈ l then l else l ++ [x]

namespace Store

/-- `getState` (store.ts lines 106-111). -/
def getState (st : StoreState) : Except Err Obj :=
  if st.isDestroyed then .error (.destroyedAccess "getState")
  else .ok st.state

/-- `subscribe` (lines 145-155): throws on a destroyed store, otherwise adds
the listener to the registry. -/
def subscribe (st : StoreState) (lid : Nat) : Except Err StoreState :=
  if st.isDestroyed then .error (.destroyedAccess "subscribe")
  else .ok { st with listeners := setAdd st.listeners lid }

/-- The unsubscribe closure returned by `subscribe` (lines 152-154): plain
`Set.delete`, with no destroyed check. -/
def unsubscribe (st : StoreState) (lid : Nat) : StoreState :=
  { st with listeners := st.listeners.filter (fun l => l != lid) }

/-- `select` (lines 157-170): throws on a destroyed store; otherwise a cache
probe (which on a hit moves the entry to most-recently-used position and
returns its value with no version comparison), and on a miss the selector is
invoked on the current snapshot and the result stored.  The returned `Bool`
records whether the underlying selector function was invoked. -/
def select (env : Env) (st : StoreState) (selId : Nat) :
    Except Err (Int × StoreState × Bool) :=
  if st.isDestroyed then .error (.destroyedAccess "select")
  else
    match st.cache.get selId with
    | (some e, c1) => .ok (e.value, { st with cache := c1 }, false)
    | (none, c1) =>
        let r := env.sel selId st.state
        .ok (r, { st with cache := c1.set selId r }, true)

/-- `destroy` (lines 172-178): idempotent; first call sets the flag, clears
the listener registry and clears the selector cache. -/
def destroy (st : StoreState) : StoreState :=
  if st.isDestroyed then st
  else { st with isDestroyed := true, listeners := [],
                 cache := st.cache.clear }

/-- `getListenerCount` (lines 180-182): the size of the listener registry,
with no destroyed check. -/
def getListenerCount (st : StoreState) : Nat :=
  st.listeners.length

end Store

/-- A deferred closure held in the scheduler's `pendingNotifications` set:
either the per-store flush closure created in `notify` (store.ts lines
94-99), or an arbitrary user thunk passed to the public `scheduleBatch`,
identified by id (closure identity). -/
inductive Thunk where
  | notifyStore (sid : Nat)
  | user (tid : Nat)
deriving DecidableEq

/-- Observable events recorded by the interpreter, in order of occurrence.
`notified` records a listener invocation together with the scheduler depth
at the moment of delivery; `listenerError` and `thunkError` record an
exception caught and logged by the flush machinery; `warnedDestroyed` is the
`console.warn` of `setState` on a destroyed store. -/
inductive Event where
  | notified (sid lid : Nat) (next prev : Obj) (depth : Nat)
  | listenerError (sid lid : Nat)
  | thunkError (tid : Nat)
  | userThunkRan (tid : Nat)
  | selectorInvoked (sid selId : Nat)
  | warnedDestroyed (sid : Nat)
deriving DecidableEq

/-- The whole mutable world: the module-level scheduler variables
`batchDepth` and `pendingNotifications` of batch.ts (process-wide, shared by
every store), the private state of every store keyed by store id, and the
event trace. -/
@[ext]
structure Sys where
  batchDepth : Nat
  pending : List Thunk
  stores : List (Nat × StoreState)
  events : List Event

/-- Association-list lookup for the store registry. -/
def storesGet : List (Nat × StoreState) → Nat → Option StoreState
  | [], _ => none
  | p :: l, sid => if p.1 == sid then some p.2 else storesGet l sid

/-- Association-list update for the store registry: every entry keyed `sid`
is replaced, the rest untouched. -/
def storesSet : List (Nat × StoreState) → Nat → StoreState → List (Nat × StoreState)
  | [], _, _ => []
  | p :: l, sid, st => (if p.1 == sid then (sid, st) else p) :: storesSet l sid st

namespace Sys

/-- Look up the store with id `sid`. -/
def getStore (s : Sys) (sid : Nat) : Option StoreState :=
  storesGet s.stores sid

/-- Replace the state of the store with id `sid` (other stores untouched). -/
def setStore (s : Sys) (sid : Nat) (st : StoreState) : Sys :=
  { s with stores := storesSet s.stores sid st }

end Sys

/-- The events produced by `notifyListeners` (store.ts lines 76-84): each
registered listener, in registration order, is invoked with
`(nextState, prevState)`; a listener that throws has its exception caught
and logged right after its invocation, and the loop continues. -/
def listenerEvents (env : Env) (sid : Nat) (ls : List Nat)
    (next prev : Obj) (depth : Nat) : List Event :=
  match ls with
  | [] => []
  | l :: rest =>
      .notified sid l next prev depth ::
        ((if env.listenerThrows l then [.listenerError sid l] else []) ++
          listenerEvents env sid rest next prev depth)

/-- Run one deferred thunk, letting any exception escape (`Option Err`).
A `notifyStore` closure (store.ts lines 94-99) resets the store's
pending-flush flag, invokes `notifyListeners` with the captured window-start
snapshot and the live current snapshot, and clears the captured snapshot; it
never throws (listener errors are caught inside `notifyListeners`).  A user
thunk throws according to the environment. -/
def runThunkRaw (env : Env) (s : Sys) : Thunk → Sys × Option Err
  | .user tid =>
      if env.thunkThrows tid then (s, some (.raised tid))
      else ({ s with events := s.events ++ [.userThunkRan tid] }, none)
  | .notifyStore sid =>
      match s.getStore sid with
      | none => (s, none)
      | some st =>
          let st1 := { st with hasPendingNotify := false,
                               notifyPrevState := none }
          let evs :=
            match st.notifyPrevState with
            | some prev =>
                listenerEvents env sid st.listeners st.state prev s.batchDepth
            | none => []
          ({ s.setStore sid st1 with events := s.events ++ evs }, none)

/-- One iteration of the drain loop in `flushNotifications` (batch.ts lines
462-468): the thunk runs inside a `try`/`catch` that logs and continues. -/
def runThunkCaught (env : Env) (s : Sys) (t : Thunk) : Sys :=
  match runThunkRaw env s t with
  | (s1, none) => s1
  | (s1, some (.raised tid)) =>
      { s1 with events := s1.events ++ [.thunkError tid] }
  | (s1, some _) => s1

/-- `flushNotifications` (batch.ts lines 459-469): snapshot the pending set,
clear it, then run every thunk in order, each in its own failure boundary. -/
def flushNotifications (env : Env) (s : Sys) : Sys :=
  s.pending.foldl (runThunkCaught env) { s with pending := [] }

/-- `scheduleBatch` (batch.ts lines 475-482): at depth zero the thunk runs
immediately (with no surrounding `try`/`catch`, so a throwing user thunk
propagates); inside a transaction it is added to the pending set
(`Set.add`: appended unless already present). -/
def scheduleBatch (env : Env) (s : Sys) (t : Thunk) : Sys × Option Err :=
  if s.batchDepth == 0 then runThunkRaw env s t
  else
    ({ s with pending := if t ∈ s.pending then s.pending else s.pending ++ [t] },
     none)

/-- `isBatching` (batch.ts lines 487-489). -/
def isBatching (s : Sys) : Bool :=
  decide (0 < s.batchDepth)

/-- `startBatch` (batch.ts lines 492-494). -/
def startBatch (s : Sys) : Sys :=
  { s with batchDepth := s.batchDepth + 1 }

/-- `endBatch` (batch.ts lines 496-501): decrement the depth; when it
reaches zero and thunks are pending, drain the queue. -/
def endBatch (env : Env) (s : Sys) : Sys :=
  let s1 := { s with batchDepth := s.batchDepth - 1 }
  if s1.batchDepth == 0 && !s1.pending.isEmpty then flushNotifications env s1
  else s1

/-- The store-local `notify` (store.ts lines 86-103): on a live store with
no pending flush, set the flag, capture `prevState` as the window-start
snapshot, and hand the flush closure to the scheduler. -/
def notify (env : Env) (s : Sys) (sid : Nat) (prev : Obj) : Sys × Option Err :=
  match s.getStore sid with
  | none => (s, none)
  | some st =>
      if st.isDestroyed then (s, none)
      else if st.hasPendingNotify then (s, none)
      else
        let st1 := { st with hasPendingNotify := true,
                             notifyPrevState := some prev }
        scheduleBatch env (s.setStore sid st1) (.notifyStore sid)

/-- `setState` (store.ts lines 113-143): a destroyed store only warns; the
candidate next snapshot is computed from the updater and compared with the
configured equality function — on equality the call returns with no effect
at all; otherwise the snapshot is replaced, the cache invalidated, and (only
when no flush is already pending) `notify` is called with the pre-call
snapshot. -/
def setState (env : Env) (s : Sys) (sid : Nat) (u : StateUpdater) :
    Sys × Option Err :=
  match s.getStore sid with
  | none => (s, none)
  | some st =>
      if st.isDestroyed then
        ({ s with events := s.events ++ [.warnedDestroyed sid] }, none)
      else
        let prev := st.state
        let next := applyUpdater st.state u
        if st.equalityFn prev next then (s, none)
        else
          let st1 := { st with state := next, cache := st.cache.invalidate }
          let s1 := s.setStore sid st1
          if st.hasPendingNotify then (s1, none)
          else notify env s1 sid prev

/-- The `subscribe` call through the public surface: on success the updated
store is written back; on a destroyed store the error propagates. -/
def subscribeStep (s : Sys) (sid lid : Nat) : Sys × Option Err :=
  match s.getStore sid with
  | none => (s, none)
  | some st =>
      match Store.subscribe st lid with
      | .ok st1 => (s.setStore sid st1, none)
      | .error e => (s, some e)

/-- Calling the unsubscribe closure returned by `subscribe`. -/
def unsubscribeStep (s : Sys) (sid lid : Nat) : Sys × Option Err :=
  match s.getStore sid with
  | none => (s, none)
  | some st => (s.setStore sid (Store.unsubscribe st lid), none)

/-- The `select` call through the public surface; a cache miss records the
invocation of the underlying selector function in the trace. -/
def selectStep (env : Env) (s : Sys) (sid selId : Nat) : Sys × Option Err :=
  match s.getStore sid with
  | none => (s, none)
  | some st =>
      match Store.select env st selId with
      | .error e => (s, some e)
      | .ok (_, st1, invoked) =>
          let s1 := s.setStore sid st1
          (if invoked then
             { s1 with events := s1.events ++ [.selectorInvoked sid selId] }
           else s1, none)

/-- The `destroy` call through the public surface. -/
def destroyStep (s : Sys) (sid : Nat) : Sys × Option Err :=
  match s.getStore sid with
  | none => (s, none)
  | some st => (s.setStore sid (Store.destroy st), none)

/-- Programs over the public API.  `batch body` is `batch(fn)` where `fn`
performs the commands of `body` in order; `scheduleUser` passes a user thunk
to the public `scheduleBatch`; `throwRaise` models user code inside a batch
body throwing an exception. -/
inductive Cmd where
  | doSet (sid : Nat) (u : StateUpdater)
  | doSubscribe (sid lid : Nat)
  | doUnsubscribe (sid lid : Nat)
  | doSelect (sid selId : Nat)
  | doDestroy (sid : Nat)
  | batch (body : List Cmd)
  | scheduleUser (tid : Nat)
  | throwRaise (code : Nat)

mutual
/-- The interpreter: runs one command against the world, returning the new
world and the exception propagating to the caller, if any.  The `batch`
case is `batch(fn)` of batch.ts lines 507-523 for a synchronous `fn`:
increment the depth, run the body, and decrement via `endBatch` on both the
normal and the throwing path before the exception is re-thrown. -/
def runCmd (env : Env) : Cmd → Sys → Sys × Option Err
  | .doSet sid u, s => setState env s sid u
  | .doSubscribe sid lid, s => subscribeStep s sid lid
  | .doUnsubscribe sid lid, s => unsubscribeStep s sid lid
  | .doSelect sid selId, s => selectStep env s sid selId
  | .doDestroy sid, s => destroyStep s sid
  | .batch body, s =>
      match runCmds env body (startBatch s) with
      | (s1, e) => (endBatch env s1, e)
  | .scheduleUser tid, s => scheduleBatch env s (.user tid)
  | .throwRaise code, s => (s, some (.raised code))

/-- Run commands in order; an exception stops the sequence and propagates. -/
def runCmds (env : Env) : List Cmd → Sys → Sys × Option Err
  | [], s => (s, none)
  | c :: cs, s =>
      match runCmd env c s with
      | (s1, none) => runCmds env cs s1
      | (s1, some e) => (s1, some e)
end

/-! ### Basic lemmas about the world record -/

@[simp]
theorem setStore_batchDepth (s : Sys) (sid : Nat) (st : StoreState) :
    (s.setStore sid st).batchDepth = s.batchDepth := rfl

@[simp]
theorem setStore_pending (s : Sys) (sid : Nat) (st : StoreState) :
    (s.setStore sid st).pending = s.pending := rfl

@[simp]
theorem setStore_events (s : Sys) (sid : Nat) (st : StoreState) :
    (s.setStore sid st).events = s.events := rfl

theorem storesGet_storesSet_self (sid : Nat) (st1 : StoreState) :
    ∀ l : List (Nat × StoreState),
      storesGet (storesSet l sid st1) sid =
        (storesGet l sid).map (fun _ => st1) := by
  intro l
  induction l with
  | nil => rfl
  | cons p l ih =>
      by_cases h : p.1 = sid
      · simp [storesGet, storesSet, h]
      · simp [storesGet, storesSet, h, ih]

theorem storesGet_storesSet_ne (sid sid' : Nat) (st1 : StoreState)
    (h : sid' ≠ sid) :
    ∀ l : List (Nat × StoreState),
      storesGet (storesSet l sid' st1) sid = storesGet l sid := by
  intro l
  induction l with
  | nil => rfl
  | cons p l ih =>
      by_cases hp : p.1 = sid'
      · have hq : p.1 ≠ sid := by omega
        simp [storesGet, storesSet, hp, hq, h, ih]
      · by_cases hq : p.1 = sid
        · simp [storesGet, storesSet, hp, hq, Ne.symm h]
        · simp [storesGet, storesSet, hp, hq, ih]

theorem storesSet_storesSet (sid : Nat) (a b : StoreState) :
    ∀ l : List (Nat × StoreState),
      storesSet (storesSet l sid a) sid b = storesSet l sid b := by
  intro l
  induction l with
  | nil => rfl
  | cons p l ih =>
      by_cases h : p.1 = sid
      · simp [storesSet, h, ih]
      · simp [storesSet, h, ih]

@[simp]
theorem getStore_setStore_self (s : Sys) (sid : Nat) (st1 : StoreState) :
    (s.setStore sid st1).getStore sid = (s.getStore sid).map (fun _ => st1) :=
  storesGet_storesSet_self sid st1 s.stores

@[simp]
theorem getStore_setStore_ne (s : Sys) (sid sid' : Nat) (st1 : StoreState)
    (h : sid' ≠ sid) :
    (s.setStore sid' st1).getStore sid = s.getStore sid :=
  storesGet_storesSet_ne sid sid' st1 h s.stores

theorem setStore_setStore (s : Sys) (sid : Nat) (a b : StoreState) :
    (s.setStore sid a).setStore sid b = s.setStore sid b := by
  unfold Sys.setStore
  simp only [storesSet_storesSet]

/-! ### The scheduler depth is unchanged by a balanced program -/

theorem runThunkRaw_batchDepth (env : Env) (s : Sys) (t : Thunk) :
    (runThunkRaw env s t).1.batchDepth = s.batchDepth := by
  cases t with
  | user tid =>
      simp only [runThunkRaw]
      split <;> rfl
  | notifyStore sid =>
      simp only [runThunkRaw]
      split <;> rfl

theorem runThunkCaught_batchDepth (env : Env) (s : Sys) (t : Thunk) :
    (runThunkCaught env s t).batchDepth = s.batchDepth := by
  have h := runThunkRaw_batchDepth env s t
  unfold runThunkCaught
  rcases hr : runThunkRaw env s t with ⟨s1, e⟩
  rw [hr] at h
  match e with
  | none => simpa using h
  | some (.raised tid) => simpa using h
  | some (.destroyedAccess op) => simpa using h

theorem foldl_runThunkCaught_batchDepth (env : Env) :
    ∀ (ts : List Thunk) (s : Sys),
      (ts.foldl (runThunkCaught env) s).batchDepth = s.batchDepth := by
  intro ts
  induction ts with
  | nil => intro s; rfl
  | cons t ts ih =>
      intro s
      simpa [List.foldl, runThunkCaught_batchDepth] using
        (ih (runThunkCaught env s t)).trans (runThunkCaught_batchDepth env s t)

theorem flushNotifications_batchDepth (env : Env) (s : Sys) :
    (flushNotifications env s).batchDepth = s.batchDepth := by
  unfold flushNotifications
  exact foldl_runThunkCaught_batchDepth env s.pending _

theorem scheduleBatch_batchDepth (env : Env) (s : Sys) (t : Thunk) :
    (scheduleBatch env s t).1.batchDepth = s.batchDepth := by
  unfold scheduleBatch
  split
  · exact runThunkRaw_batchDepth env s t
  · rfl

theorem notify_batchDepth (env : Env) (s : Sys) (sid : Nat) (prev : Obj) :
    (notify env s sid prev).1.batchDepth = s.batchDepth := by
  unfold notify
  repeat' split
  all_goals first
    | rfl
    | simpa using scheduleBatch_batchDepth env _ _

theorem setState_batchDepth (env : Env) (s : Sys) (sid : Nat)
    (u : StateUpdater) :
    (setState env s sid u).1.batchDepth = s.batchDepth := by
  unfold setState
  rcases hg : s.getStore sid with _ | st
  · rfl
  · by_cases hd : st.isDestroyed = true <;>
    by_cases he : st.equalityFn st.state (applyUpdater st.state u) = true <;>
    by_cases hp : st.hasPendingNotify = true <;>
    simp [hd, he, hp, notify_batchDepth]

theorem subscribeStep_batchDepth (s : Sys) (sid lid : Nat) :
    (subscribeStep s sid lid).1.batchDepth = s.batchDepth := by
  unfold subscribeStep
  repeat' split
  all_goals rfl

theorem unsubscribeStep_batchDepth (s : Sys) (sid lid : Nat) :
    (unsubscribeStep s sid lid).1.batchDepth = s.batchDepth := by
  unfold unsubscribeStep
  repeat' split
  all_goals rfl

theorem selectStep_batchDepth (env : Env) (s : Sys) (sid selId : Nat) :
    (selectStep env s sid selId).1.batchDepth = s.batchDepth := by
  unfold selectStep
  repeat' split
  all_goals rfl

theorem destroyStep_batchDepth (s : Sys) (sid : Nat) :
    (destroyStep s sid).1.batchDepth = s.batchDepth := by
  unfold destroyStep
  repeat' split
  all_goals rfl

theorem endBatch_batchDepth (env : Env) (s : Sys) :
    (endBatch env s).batchDepth = s.batchDepth - 1 := by
  unfold endBatch
  dsimp only
  split
  · simpa using flushNotifications_batchDepth env _
  · rfl

mutual
/-- The interpreter never changes the scheduler depth: `batch` is balanced
(`endBatch` runs even when the body throws), and nothing else touches the
counter. -/
theorem runCmd_batchDepth (env : Env) :
    ∀ (c : Cmd) (s : Sys), (runCmd env c s).1.batchDepth = s.batchDepth
  | .doSet sid u, s => setState_batchDepth env s sid u
  | .doSubscribe sid lid, s => subscribeStep_batchDepth s sid lid
  | .doUnsubscribe sid lid, s => unsubscribeStep_batchDepth s sid lid
  | .doSelect sid selId, s => selectStep_batchDepth env s sid selId
  | .doDestroy sid, s => destroyStep_batchDepth s sid
  | .batch body, s => by
      have hb := runCmds_batchDepth env body (startBatch s)
      unfold runCmd
      rcases hr : runCmds env body (startBatch s) with ⟨s1, e⟩
      rw [hr] at hb
      show (endBatch env s1).batchDepth = s.batchDepth
      rw [endBatch_batchDepth, hb]
      rfl
  | .scheduleUser tid, s => scheduleBatch_batchDepth env s _
  | .throwRaise code, s => rfl

theorem runCmds_batchDepth (env : Env) :
    ∀ (cs : List Cmd) (s : Sys),
      (runCmds env cs s).1.batchDepth = s.batchDepth
  | [], s => rfl
  | c :: cs, s => by
      have h1 := runCmd_batchDepth env c s
      unfold runCmds
      rcases hr : runCmd env c s with ⟨s1, e⟩
      rw [hr] at h1
      match e with
      | none => simpa [runCmds_batchDepth env cs s1] using h1
      | some err => simpa using h1
end

/-! ### A generic preservation principle for the interpreter

A predicate on the world that is preserved by each atomic step of the
public surface is preserved by every program. -/

/-- The atomic steps of the interpreter all preserve `P`. -/
structure StepClosed (env : Env) (P : Sys → Prop) : Prop where
  hSet : ∀ s sid u, P s → P (setState env s sid u).1
  hSub : ∀ s sid lid, P s → P (subscribeStep s sid lid).1
  hUnsub : ∀ s sid lid, P s → P (unsubscribeStep s sid lid).1
  hSel : ∀ s sid selId, P s → P (selectStep env s sid selId).1
  hDestroy : ∀ s sid, P s → P (destroyStep s sid).1
  hStart : ∀ s, P s → P (startBatch s)
  hEnd : ∀ s, P s → P (endBatch env s)
  hSched : ∀ s t, P s → P (scheduleBatch env s t).1

mutual
theorem runCmd_preserve (env : Env) (P : Sys → Prop)
    (hc : StepClosed env P) :
    ∀ (c : Cmd) (s : Sys), P s → P (runCmd env c s).1
  | .doSet sid u, s, hp => hc.hSet s sid u hp
  | .doSubscribe sid lid, s, hp => hc.hSub s sid lid hp
  | .doUnsubscribe sid lid, s, hp => hc.hUnsub s sid lid hp
  | .doSelect sid selId, s, hp => hc.hSel s sid selId hp
  | .doDestroy sid, s, hp => hc.hDestroy s sid hp
  | .batch body, s, hp => by
      have h1 := runCmds_preserve env P hc body (startBatch s) (hc.hStart s hp)
      unfold runCmd
      rcases hr : runCmds env body (startBatch s) with ⟨s1, e⟩
      rw [hr] at h1
      exact hc.hEnd s1 h1
  | .scheduleUser tid, s, hp => hc.hSched s _ hp
  | .throwRaise code, s, hp => hp

theorem runCmds_preserve (env : Env) (P : Sys → Prop)
    (hc : StepClosed env P) :
    ∀ (cs : List Cmd) (s : Sys), P s → P (runCmds env cs s).1
  | [], s, hp => hp
  | c :: cs, s, hp => by
      have h1 := runCmd_preserve env P hc c s hp
      unfold runCmds
      rcases hr : runCmd env c s with ⟨s1, e⟩
      rw [hr] at h1
      match e with
      | none => exact runCmds_preserve env P hc cs s1 h1
      | some err => exact h1
end

/-! ### Concrete fixtures used by the witnesses -/

/-- A concrete store over the snapshot `{ count: 0 }`, with two listeners
(listener 8 throws under `envW`), an empty selector cache of the default
capacity 50, and structural equality as the configured equality function. -/
def storeW : StoreState :=
  { state := [("count", 0)], isDestroyed := false, listeners := [7, 8]
    cache := { cache := [], maxSize := 50, stateVersion := 0 }
    equalityFn := fun a b => a == b
    hasPendingNotify := false, notifyPrevState := none }

/-- A concrete environment: selector `i` reads field `"count"` and adds `i`;
listener 8 throws; user thunk 1 throws. -/
def envW : Env :=
  { sel := fun i o => (objGet o "count").getD 0 + Int.ofNat i
    listenerThrows := fun l => l == 8
    thunkThrows := fun t => t == 1 }

/-- A concrete world holding `storeW` under store id 0, outside any batch. -/
def sysW : Sys :=
  { batchDepth := 0, pending := [], stores := [(0, storeW)], events := [] }

/-! ### C5 — an equality-detected no-op `setState` changes nothing -/

/-- C5: for every store and every `setState` call whose candidate next
snapshot the configured equality function judges equal to the current
snapshot, the call is a complete no-op: the whole world — the state
reference, the version counter and entries of the selector cache, the
pending-flush flag, the scheduler queue, and the event trace — is returned
unchanged, so no flush is scheduled and no listener is ever invoked for the
call (store.ts lines 131-134). -/
theorem setState_noop_complete (env : Env) (s : Sys) (sid : Nat)
    (st : StoreState) (u : StateUpdater)
    (hst : s.getStore sid = some st)
    (hlive : st.isDestroyed = false)
    (heq : st.equalityFn st.state (applyUpdater st.state u) = true) :
    runCmd env (.doSet sid u) s = (s, none) := by
  show setState env s sid u = (s, none)
  unfold setState
  rw [hst]
  simp [hlive, heq]

/-- Witness for C5 at a concrete input: re-sending `{ count: 0 }` to the
store holding `{ count: 0 }` changes nothing. -/
theorem setState_noop_complete_witness :
    sysW.getStore 0 = some storeW ∧
    storeW.isDestroyed = false ∧
    storeW.equalityFn storeW.state
      (applyUpdater storeW.state (.patch [("count", 0)])) = true ∧
    runCmd envW (.doSet 0 (.patch [("count", 0)])) sysW = (sysW, none) :=
  ⟨rfl, rfl, by decide,
    setState_noop_complete envW sysW 0 storeW (.patch [("count", 0)])
      rfl rfl (by decide)⟩

/-! ### C4 — destruction semantics -/

/-- C4: `destroy()` is idempotent — a second call returns the store
unchanged, with no error and no further side effect — and afterwards
`getState`, `subscribe` and `select` all raise the DestroyedAccess error,
while `setState` never throws: it emits exactly one diagnostic event and
leaves the store (state, cache version counter, listeners) and the rest of
the world untouched (store.ts lines 106-117, 146-148, 158-160, 172-178). -/
theorem destroy_idempotent_and_access (env : Env) (s : Sys) (st : StoreState)
    (sid lid selId : Nat) (u : StateUpdater)
    (hst : s.getStore sid = some (Store.destroy st)) :
    Store.destroy (Store.destroy st) = Store.destroy st ∧
    Store.getState (Store.destroy st) = .error (.destroyedAccess "getState") ∧
    Store.subscribe (Store.destroy st) lid =
      .error (.destroyedAccess "subscribe") ∧
    Store.select env (Store.destroy st) selId =
      .error (.destroyedAccess "select") ∧
    runCmd env (.doSet sid u) s =
      ({ s with events := s.events ++ [.warnedDestroyed sid] }, none) := by
  have hdes : (Store.destroy st).isDestroyed = true := by
    unfold Store.destroy
    split <;> simp_all
  refine ⟨?_, ?_, ?_, ?_, ?_⟩
  · by_cases h : st.isDestroyed = true <;> simp [Store.destroy, h]
  · unfold Store.getState
    rw [if_pos hdes]
  · unfold Store.subscribe
    rw [if_pos hdes]
  · unfold Store.select
    rw [if_pos hdes]
  · show setState env s sid u =
      ({ s with events := s.events ++ [.warnedDestroyed sid] }, none)
    unfold setState
    rw [hst]
    simp [hdes]

/-- Witness for C4 at a concrete input: destroying the concrete store `storeW`
(in a world where store 0 already holds the destroyed store). -/
theorem destroy_idempotent_and_access_witness :
    ({ sysW with stores := [(0, Store.destroy storeW)] } : Sys).getStore 0 =
      some (Store.destroy storeW) ∧
    Store.destroy (Store.destroy storeW) = Store.destroy storeW ∧
    runCmd envW (.doSet 0 (.patch [("count", 1)]))
        { sysW with stores := [(0, Store.destroy storeW)] } =
      ({ sysW with stores := [(0, Store.destroy storeW)],
                   events := [.warnedDestroyed 0] }, none) :=
  ⟨rfl,
    (destroy_idempotent_and_access envW
      { sysW with stores := [(0, Store.destroy storeW)] } storeW 0 3 4
      (.patch [("count", 1)]) rfl).1,
    (destroy_idempotent_and_access envW
      { sysW with stores := [(0, Store.destroy storeW)] } storeW 0 3 4
      (.patch [("count", 1)]) rfl).2.2.2.2⟩

/-! ### C7 — selector memoization -/

theorem find?_key_filter_none {l : List (Nat × CacheEntry)} {k : Nat}
    (q : Nat × CacheEntry → Bool)
    (h : l.find? (fun p => p.1 == k) = none) :
    (l.filter q).find? (fun p => p.1 == k) = none := by
  rw [List.find?_eq_none] at h ⊢
  intro x hx
  exact h x (List.mem_of_mem_filter hx)

theorem find?_key_append_self {l : List (Nat × CacheEntry)} {k : Nat}
    (v : CacheEntry)
    (h : l.find? (fun p => p.1 == k) = none) :
    (l ++ [(k, v)]).find? (fun p => p.1 == k) = some (k, v) := by
  induction l with
  | nil => simp
  | cons p l ih =>
      rw [List.find?_eq_none] at h
      have hp : ¬((fun p : Nat × CacheEntry => p.1 == k) p = true) :=
        h p (by simp)
      have hl : l.find? (fun p => p.1 == k) = none := by
        rw [List.find?_eq_none]
        exact fun x hx => h x (List.mem_cons_of_mem _ hx)
      rw [List.cons_append, List.find?_cons_of_neg (l ++ [(k, v)]) hp]
      exact ih hl

theorem any_key_eq_false {l : List (Nat × CacheEntry)} {k : Nat}
    (h : l.find? (fun p => p.1 == k) = none) :
    l.any (fun p => p.1 == k) = false := by
  rw [List.find?_eq_none] at h
  rw [List.any_eq_false]
  exact h

/-- `SelectorCache.set` on a key that is not present: the entry lands at the
most-recently-used end, stamped with the current version, and the version
and capacity are unchanged. -/
theorem SelectorCache.set_finds_self (c : SelectorCache) (k : Nat) (v : Int)
    (h : c.cache.find? (fun p => p.1 == k) = none) :
    (c.set k v).cache.find? (fun p => p.1 == k) =
      some (k, ⟨v, c.stateVersion⟩) ∧
    (c.set k v).stateVersion = c.stateVersion ∧
    (c.set k v).maxSize = c.maxSize := by
  unfold SelectorCache.set
  dsimp only
  refine ⟨?_, rfl, rfl⟩
  have hbase : ∀ l : List (Nat × CacheEntry),
      l.find? (fun p => p.1 == k) = none →
      (jsMapSet l k ⟨v, c.stateVersion⟩).find? (fun p => p.1 == k) =
        some (k, ⟨v, c.stateVersion⟩) := by
    intro l hl
    unfold jsMapSet
    rw [any_key_eq_false hl, if_neg (by simp)]
    exact find?_key_append_self _ hl
  split
  · split
    · exact hbase _ (find?_key_filter_none _ h)
    · exact hbase _ h
  · exact hbase _ h

/-- `SelectorCache.get` on a present key is a hit: the entry's value is
returned and the entry moves to the most-recently-used end. -/
theorem SelectorCache.get_hit (c : SelectorCache) (k : Nat) (pe : Nat × CacheEntry)
    (h : c.cache.find? (fun p => p.1 == k) = some pe) :
    c.get k = (some pe.2,
      { c with cache := jsMapSet (jsMapDelete c.cache k) k pe.2 }) := by
  unfold SelectorCache.get
  rw [h]

/-- C7: for every store and selector, two `select` calls with the same
selector identity and no accepted mutation in between invoke the underlying
selector function exactly once: the first (starting from an uncached
selector) is a miss that invokes it, the second is a cache hit that returns
the same cached value without invoking it (the `Bool` component of
`Store.select` records whether the selector function ran, store.ts lines
157-170). -/
theorem select_memoizes_second_call (env : Env) (st : StoreState)
    (selId : Nat)
    (hlive : st.isDestroyed = false)
    (hfresh : st.cache.cache.find? (fun p => p.1 == selId) = none) :
    ∃ st1 st2,
      Store.select env st selId = .ok (env.sel selId st.state, st1, true) ∧
      Store.select env st1 selId = .ok (env.sel selId st.state, st2, false) := by
  have hr : st.cache.get selId = (none, st.cache) := by
    unfold SelectorCache.get
    rw [hfresh]
  have hset := SelectorCache.set_finds_self st.cache selId
    (env.sel selId st.state) hfresh
  have h1 : Store.select env st selId =
      .ok (env.sel selId st.state,
        { st with cache := st.cache.set selId (env.sel selId st.state) },
        true) := by
    unfold Store.select
    rw [if_neg (by simp [hlive]), hr]
  have h2 : ∃ st2, Store.select env
      { st with cache := st.cache.set selId (env.sel selId st.state) }
      selId = .ok (env.sel selId st.state, st2, false) := by
    unfold Store.select
    rw [if_neg (by simp [hlive])]
    rw [SelectorCache.get_hit _ selId
      (selId, ⟨env.sel selId st.state, st.cache.stateVersion⟩) hset.1]
    exact ⟨_, rfl⟩
  obtain ⟨st2, h2⟩ := h2
  exact ⟨_, st2, h1, h2⟩

/-- Witness for C7 at a concrete input: two `select` calls for selector 3 on
the concrete store; the selector function runs only on the first. -/
theorem select_memoizes_second_call_witness :
    storeW.isDestroyed = false ∧
    storeW.cache.cache.find? (fun p => p.1 == 3) = none ∧
    (∃ st1 st2,
      Store.select envW storeW 3 = .ok (envW.sel 3 storeW.state, st1, true) ∧
      Store.select envW st1 3 = .ok (envW.sel 3 storeW.state, st2, false)) :=
  ⟨rfl, rfl, select_memoizes_second_call envW storeW 3 rfl rfl⟩

/-! ### C6 — LRU eviction at the default capacity of 50 -/

theorem filter_key_ne_eq_self (l : List (Nat × CacheEntry)) (k : Nat)
    (h : ∀ p ∈ l, p.1 ≠ k) :
    l.filter (fun p => p.1 != k) = l := by
  rw [List.filter_eq_self]
  intro a ha
  simpa using h a ha

theorem jsMapSet_not_mem (l : List (Nat × CacheEntry)) (k : Nat)
    (v : CacheEntry) (h : ∀ p ∈ l, p.1 ≠ k) :
    jsMapSet l k v = l ++ [(k, v)] := by
  unfold jsMapSet
  have hany : l.any (fun p => p.1 == k) = false := by
    rw [List.any_eq_false]
    intro x hx
    simpa using h x hx
  rw [hany, if_neg (by simp)]

/-- `SelectorCache.set` of a fresh key on a full cache: the head (oldest)
entry is evicted and the new entry, stamped with the current version, is
appended at the most-recently-used end. -/
theorem SelectorCache.set_evicts (c : SelectorCache) (k : Nat) (v : Int)
    (p0 : Nat × CacheEntry) (tail : List (Nat × CacheEntry))
    (hc : c.cache = p0 :: tail)
    (hfull : c.maxSize ≤ c.cache.length)
    (hknot : ∀ p ∈ c.cache, p.1 ≠ k)
    (hp0tail : ∀ p ∈ tail, p.1 ≠ p0.1) :
    c.set k v = { c with cache := tail ++ [(k, ⟨v, c.stateVersion⟩)] } := by
  unfold SelectorCache.set
  dsimp only
  rw [if_pos hfull, hc]
  simp only [List.head?_cons]
  have hdel : jsMapDelete (p0 :: tail) p0.1 = tail := by
    unfold jsMapDelete
    rw [List.filter_cons_of_neg (by simp)]
    exact filter_key_ne_eq_self _ _ hp0tail
  rw [hdel, jsMapSet_not_mem _ _ _
    (fun p hp => hknot p (by rw [hc]; exact List.mem_cons_of_mem _ hp))]

/-- C6: with the cache at its default capacity of 50 — here holding the
first-inserted entry `(selId0, e0)`, the second-inserted `(k1, e1)`, and 48
more entries `rest'` — a `select` hit on `selId0` moves it to the
most-recently-used end, and a subsequent `select` of a 51st distinct
selector `selIdNew` evicts exactly the least-recently-touched entry `k1`:
the first-inserted but re-accessed `selId0` survives (store.ts lines 25-53,
157-170). -/
theorem lru_eviction_spares_touched (env : Env) (st : StoreState)
    (selId0 k1 selIdNew : Nat) (e0 e1 : CacheEntry)
    (rest' : List (Nat × CacheEntry))
    (hlive : st.isDestroyed = false)
    (hmax : st.cache.maxSize = 50)
    (hshape : st.cache.cache = (selId0, e0) :: (k1, e1) :: rest')
    (hlen : rest'.length = 48)
    (h01 : k1 ≠ selId0)
    (h0r : ∀ p ∈ rest', p.1 ≠ selId0)
    (h1r : ∀ p ∈ rest', p.1 ≠ k1)
    (hN0 : selIdNew ≠ selId0)
    (hN1 : selIdNew ≠ k1)
    (hNr : ∀ p ∈ rest', p.1 ≠ selIdNew) :
    Store.select env st selId0 =
      .ok (e0.value,
        { st with cache := { st.cache with cache :=
            ((k1, e1) :: rest') ++ [(selId0, e0)] } }, false) ∧
    Store.select env
        { st with cache := { st.cache with cache :=
            ((k1, e1) :: rest') ++ [(selId0, e0)] } } selIdNew =
      .ok (env.sel selIdNew st.state,
        { st with cache := { st.cache with cache :=
            (rest' ++ [(selId0, e0)]) ++
              [(selIdNew, ⟨env.sel selIdNew st.state,
                           st.cache.stateVersion⟩)] } }, true) ∧
    (selId0, e0) ∈
      (rest' ++ [(selId0, e0)]) ++
        [(selIdNew, ⟨env.sel selIdNew st.state, st.cache.stateVersion⟩)] ∧
    (∀ e : CacheEntry, (k1, e) ∉
      (rest' ++ [(selId0, e0)]) ++
        [(selIdNew, ⟨env.sel selIdNew st.state, st.cache.stateVersion⟩)]) := by
  have hfind0 : st.cache.cache.find? (fun p => p.1 == selId0) =
      some (selId0, e0) := by
    rw [hshape]
    exact List.find?_cons_of_pos _ (by simp)
  have hdel : jsMapDelete st.cache.cache selId0 = (k1, e1) :: rest' := by
    unfold jsMapDelete
    rw [hshape, List.filter_cons_of_neg (by simp),
        List.filter_cons_of_pos (by simpa using h01),
        filter_key_ne_eq_self rest' selId0 h0r]
  have hset0 : jsMapSet ((k1, e1) :: rest') selId0 e0 =
      ((k1, e1) :: rest') ++ [(selId0, e0)] := by
    refine jsMapSet_not_mem _ _ _ ?_
    intro p hp
    rcases List.mem_cons.mp hp with h | h
    · rw [h]; exact h01
    · exact h0r p h
  have hget := SelectorCache.get_hit st.cache selId0 (selId0, e0) hfind0
  rw [hdel, hset0] at hget
  have hsel1 : Store.select env st selId0 =
      .ok (e0.value,
        { st with cache := { st.cache with cache :=
            ((k1, e1) :: rest') ++ [(selId0, e0)] } }, false) := by
    unfold Store.select
    rw [if_neg (by simp [hlive]), hget]
  have hfindN : (((k1, e1) :: rest') ++ [(selId0, e0)]).find?
      (fun p => p.1 == selIdNew) = none := by
    rw [List.find?_eq_none]
    intro x hx
    rcases List.mem_append.mp hx with h | h
    · rcases List.mem_cons.mp h with h | h
      · rw [h]; simpa using (Ne.symm hN1)
      · simpa using fun he => hNr x h (by rw [he])
    · have : x = (selId0, e0) := by simpa using h
      rw [this]; simpa using (Ne.symm hN0)
  have hsel2 : Store.select env
      { st with cache := { st.cache with cache :=
          ((k1, e1) :: rest') ++ [(selId0, e0)] } } selIdNew =
      .ok (env.sel selIdNew st.state,
        { st with cache := { st.cache with cache :=
            (rest' ++ [(selId0, e0)]) ++
              [(selIdNew, ⟨env.sel selIdNew st.state,
                           st.cache.stateVersion⟩)] } }, true) := by
    have hgetN : SelectorCache.get
        { st.cache with cache := ((k1, e1) :: rest') ++ [(selId0, e0)] }
        selIdNew =
        (none, { st.cache with cache :=
          ((k1, e1) :: rest') ++ [(selId0, e0)] }) := by
      unfold SelectorCache.get
      rw [hfindN]
    have hstep : Store.select env
        { st with cache := { st.cache with cache :=
            ((k1, e1) :: rest') ++ [(selId0, e0)] } } selIdNew =
        .ok (env.sel selIdNew st.state,
          { st with cache := (SelectorCache.set
              ({ st.cache with cache := ((k1, e1) :: rest') ++ [(selId0, e0)] })
              selIdNew (env.sel selIdNew st.state)) }, true) := by
      unfold Store.select
      rw [if_neg (by simp [hlive]), hgetN]
    have hseteq : SelectorCache.set
        ({ st.cache with cache := ((k1, e1) :: rest') ++ [(selId0, e0)] })
        selIdNew (env.sel selIdNew st.state) =
        { st.cache with cache :=
            (rest' ++ [(selId0, e0)]) ++
              [(selIdNew, ⟨env.sel selIdNew st.state,
                           st.cache.stateVersion⟩)] } := by
      have := SelectorCache.set_evicts
        ({ st.cache with cache := ((k1, e1) :: rest') ++ [(selId0, e0)] })
        selIdNew (env.sel selIdNew st.state)
        (k1, e1) (rest' ++ [(selId0, e0)])
        rfl
        (by simp [hmax, hlen])
        (by
          intro p hp
          rcases (by simpa using hp :
              p = (k1, e1) ∨ p ∈ rest' ∨ p = (selId0, e0)) with h | h | h
          · rw [h]; exact fun he => hN1 he.symm
          · exact fun he => hNr p h (by rw [he])
          · rw [h]; exact fun he => hN0 he.symm)
        (by
          intro p hp
          rcases List.mem_append.mp hp with h | h
          · exact h1r p h
          · have : p = (selId0, e0) := by simpa using h
            rw [this]; exact fun he => h01 he.symm)
      exact this
    rw [hstep, hseteq]
  refine ⟨hsel1, hsel2, by simp, ?_⟩
  intro e he
  rcases List.mem_append.mp he with h | h
  · rcases List.mem_append.mp h with h | h
    · exact h1r _ h rfl
    · have : (k1, e) = (selId0, e0) := by simpa using h
      exact h01 (congrArg Prod.fst this)
  · have : (k1, e) = (selIdNew,
      ⟨env.sel selIdNew st.state, st.cache.stateVersion⟩) := by simpa using h
    exact hN1 (congrArg Prod.fst this).symm

/-- A 50-entry cache for the C6 witness: keys `0, 1, 2, …, 49`. -/
def cacheW50 : SelectorCache :=
  { cache := (0, ⟨7, 0⟩) :: (1, ⟨8, 0⟩) ::
      (List.range 48).map (fun i => (i + 2, ⟨0, 0⟩))
    maxSize := 50, stateVersion := 0 }

/-- Witness for C6 at a concrete input: a full 50-entry cache, a hit on the
first-inserted selector 0, then a miss on fresh selector 100. -/
theorem lru_eviction_spares_touched_witness :
    ({ storeW with cache := cacheW50 } : StoreState).isDestroyed = false ∧
    (∀ p ∈ (List.range 48).map
        (fun i => (i + 2, (⟨0, 0⟩ : CacheEntry))), p.1 ≠ 0) ∧
    ((0, (⟨7, 0⟩ : CacheEntry)) ∈
      ((List.range 48).map (fun i => (i + 2, (⟨0, 0⟩ : CacheEntry))) ++
          [(0, ⟨7, 0⟩)]) ++
        [(100, ⟨envW.sel 100 storeW.state, 0⟩)] ∧
     ∀ e : CacheEntry, (1, e) ∉
      ((List.range 48).map (fun i => (i + 2, (⟨0, 0⟩ : CacheEntry))) ++
          [(0, ⟨7, 0⟩)]) ++
        [(100, ⟨envW.sel 100 storeW.state, 0⟩)]) := by
  refine ⟨rfl, by decide, ?_⟩
  have h := lru_eviction_spares_touched envW { storeW with cache := cacheW50 }
    0 1 100 ⟨7, 0⟩ ⟨8, 0⟩
    ((List.range 48).map (fun i => (i + 2, ⟨0, 0⟩)))
    rfl rfl rfl (by decide) (by decide) (by decide) (by decide)
    (by decide) (by decide) (by decide)
  exact ⟨h.2.2.1, h.2.2.2⟩

/-! ### Characterizations of the notification pipeline -/

theorem scheduleBatch_queued (env : Env) (s : Sys) (t : Thunk)
    (hd : s.batchDepth ≠ 0) :
    scheduleBatch env s t =
      ({ s with pending :=
          if t ∈ s.pending then s.pending else s.pending ++ [t] }, none) := by
  unfold scheduleBatch
  rw [if_neg (by simpa using hd)]

theorem scheduleBatch_immediate (env : Env) (s : Sys) (t : Thunk)
    (hd : s.batchDepth = 0) :
    scheduleBatch env s t = runThunkRaw env s t := by
  unfold scheduleBatch
  rw [if_pos (by simp [hd])]

theorem runThunkRaw_notifyStore (env : Env) (s : Sys) (sid : Nat)
    (st : StoreState) (hst : s.getStore sid = some st) :
    runThunkRaw env s (.notifyStore sid) =
      ({ s.setStore sid
          { st with hasPendingNotify := false, notifyPrevState := none } with
         events := s.events ++
           (match st.notifyPrevState with
            | some prev =>
                listenerEvents env sid st.listeners st.state prev s.batchDepth
            | none => []) }, none) := by
  unfold runThunkRaw
  dsimp only
  rw [hst]

theorem notify_fresh (env : Env) (s : Sys) (sid : Nat) (st : StoreState)
    (prev : Obj) (hst : s.getStore sid = some st)
    (hlive : st.isDestroyed = false) (hnp : st.hasPendingNotify = false) :
    notify env s sid prev =
      scheduleBatch env
        (s.setStore sid
          { st with hasPendingNotify := true, notifyPrevState := some prev })
        (.notifyStore sid) := by
  unfold notify
  rw [hst]
  simp [hlive, hnp]

theorem setState_accepted_fresh (env : Env) (s : Sys) (sid : Nat)
    (st : StoreState) (u : StateUpdater) (hst : s.getStore sid = some st)
    (hlive : st.isDestroyed = false) (hnp : st.hasPendingNotify = false)
    (hacc : st.equalityFn st.state (applyUpdater st.state u) = false) :
    setState env s sid u =
      notify env
        (s.setStore sid
          { st with state := applyUpdater st.state u,
                    cache := st.cache.invalidate })
        sid st.state := by
  unfold setState
  rw [hst]
  simp [hlive, hnp, hacc]

theorem setState_accepted_pending (env : Env) (s : Sys) (sid : Nat)
    (st : StoreState) (u : StateUpdater) (hst : s.getStore sid = some st)
    (hlive : st.isDestroyed = false) (hnp : st.hasPendingNotify = true)
    (hacc : st.equalityFn st.state (applyUpdater st.state u) = false) :
    setState env s sid u =
      (s.setStore sid
        { st with state := applyUpdater st.state u,
                  cache := st.cache.invalidate }, none) := by
  unfold setState
  rw [hst]
  simp [hlive, hnp, hacc]

/-! ### C2 — the cache is invalidated eagerly, and stamps are always
current -/

@[simp]
theorem getStore_events_update (s : Sys) (E : List Event) (sid : Nat) :
    ({ s with events := E } : Sys).getStore sid = s.getStore sid := rfl

@[simp]
theorem getStore_pending_update (s : Sys) (P : List Thunk) (sid : Nat) :
    ({ s with pending := P } : Sys).getStore sid = s.getStore sid := rfl

/-- An accepted `setState` eagerly clears the selector cache and bumps the
version counter, no matter the scheduler state; the cleared cache is
observable immediately after the call, before any `select` access. -/
theorem setState_accepted_cache (env : Env) (s : Sys) (sid : Nat)
    (st : StoreState) (u : StateUpdater) (hst : s.getStore sid = some st)
    (hlive : st.isDestroyed = false)
    (hacc : st.equalityFn st.state (applyUpdater st.state u) = false) :
    ∀ st', (setState env s sid u).1.getStore sid = some st' →
      st'.cache = st.cache.invalidate ∧ st'.state = applyUpdater st.state u := by
  by_cases hp : st.hasPendingNotify = true
  · rw [setState_accepted_pending env s sid st u hst hlive hp hacc]
    intro st' h
    simp only [getStore_setStore_self, hst, Option.map_some'] at h
    cases h
    exact ⟨rfl, rfl⟩
  · have hp' : st.hasPendingNotify = false := by simpa using hp
    rw [setState_accepted_fresh env s sid st u hst hlive hp' hacc]
    have hst1 : (s.setStore sid
        { st with state := applyUpdater st.state u,
                  cache := st.cache.invalidate }).getStore sid =
        some { st with state := applyUpdater st.state u,
                       cache := st.cache.invalidate } := by
      simp [hst]
    rw [notify_fresh env _ sid _ st.state hst1 hlive hp']
    have hst2 : ((s.setStore sid
        { st with state := applyUpdater st.state u,
                  cache := st.cache.invalidate }).setStore sid
        { st with state := applyUpdater st.state u,
                  cache := st.cache.invalidate,
                  hasPendingNotify := true,
                  notifyPrevState := some st.state }).getStore sid =
        some { st with state := applyUpdater st.state u,
                       cache := st.cache.invalidate,
                       hasPendingNotify := true,
                       notifyPrevState := some st.state } := by
      simp [hst]
    by_cases hd : ((s.setStore sid
        { st with state := applyUpdater st.state u,
                  cache := st.cache.invalidate }).setStore sid
        { st with state := applyUpdater st.state u,
                  cache := st.cache.invalidate,
                  hasPendingNotify := true,
                  notifyPrevState := some st.state }).batchDepth = 0
    · rw [scheduleBatch_immediate _ _ _ hd,
          runThunkRaw_notifyStore env _ sid _ hst2]
      intro st' h
      simp only [getStore_events_update, getStore_setStore_self, hst,
        Option.map_some'] at h
      cases h
      exact ⟨rfl, rfl⟩
    · rw [scheduleBatch_queued _ _ _ hd]
      intro st' h
      simp only [getStore_pending_update, getStore_setStore_self, hst,
        Option.map_some'] at h
      cases h
      exact ⟨rfl, rfl⟩

/-- Every entry of the cache is stamped with the cache's current version. -/
def CacheFresh (c : SelectorCache) : Prop :=
  ∀ p ∈ c.cache, p.2.stateVersion = c.stateVersion

/-- Every store's cache entries are stamped at the current version. -/
def AllFresh (s : Sys) : Prop :=
  ∀ sid st, s.getStore sid = some st → CacheFresh st.cache

theorem mem_jsMapSet (l : List (Nat × CacheEntry)) (k : Nat) (v : CacheEntry) :
    ∀ q ∈ jsMapSet l k v, q ∈ l ∨ q = (k, v) := by
  intro q hq
  unfold jsMapSet at hq
  split at hq
  · rcases List.mem_map.mp hq with ⟨p, hp, hf⟩
    by_cases h : p.1 = k
    · right; rw [← hf]; simp [h]
    · left; rw [← hf]; simpa [h] using hp
  · rcases List.mem_append.mp hq with h | h
    · exact Or.inl h
    · exact Or.inr (by simpa using h)

theorem CacheFresh.get_snd {c : SelectorCache} (h : CacheFresh c) (k : Nat) :
    CacheFresh (c.get k).2 := by
  rcases hf : c.cache.find? (fun p => p.1 == k) with _ | pe
  · have he : c.get k = (none, c) := by
      unfold SelectorCache.get
      rw [hf]
    rw [he]
    exact h
  · rw [SelectorCache.get_hit c k pe hf]
    intro q hq
    rcases mem_jsMapSet _ _ _ q hq with hm | hm
    · exact h q (List.mem_of_mem_filter hm)
    · rw [hm]
      exact h pe (List.mem_of_find?_eq_some hf)

theorem CacheFresh.set_self {c : SelectorCache} (h : CacheFresh c)
    (k : Nat) (v : Int) : CacheFresh (c.set k v) := by
  unfold SelectorCache.set
  dsimp only
  intro q hq
  rcases mem_jsMapSet _ _ _ q hq with hm | hm
  · refine h q ?_
    rcases hs : (if c.maxSize ≤ c.cache.length then
        match c.cache.head? with
        | some p => jsMapDelete c.cache p.1
        | none => c.cache
      else c.cache) with l
    rw [hs] at hm
    rcases Nat.le_total c.maxSize c.cache.length with hle | hle
    · rw [if_pos hle] at hs
      rcases hh : c.cache.head? with _ | p0
      · rw [hh] at hs; rw [← hs] at hm; exact hm
      · rw [hh] at hs; rw [← hs] at hm
        exact List.mem_of_mem_filter hm
    · by_cases hle2 : c.maxSize ≤ c.cache.length
      · rw [if_pos hle2] at hs
        rcases hh : c.cache.head? with _ | p0
        · rw [hh] at hs; rw [← hs] at hm; exact hm
        · rw [hh] at hs; rw [← hs] at hm
          exact List.mem_of_mem_filter hm
      · rw [if_neg hle2] at hs; rw [← hs] at hm; exact hm
  · rw [hm]

theorem AllFresh_setStore {s : Sys} (sid : Nat) (st1 : StoreState)
    (h : AllFresh s) (h1 : CacheFresh st1.cache) :
    AllFresh (s.setStore sid st1) := by
  intro sid' st' h'
  by_cases hs : sid = sid'
  · subst hs
    rw [getStore_setStore_self] at h'
    rcases hg : s.getStore sid with _ | st0
    · rw [hg] at h'; cases h'
    · rw [hg] at h'
      cases h'
      exact h1
  · rw [getStore_setStore_ne _ _ _ _ hs] at h'
    exact h sid' st' h'

theorem runThunkRaw_AllFresh (env : Env) (s : Sys) (t : Thunk)
    (h : AllFresh s) : AllFresh (runThunkRaw env s t).1 := by
  cases t with
  | user tid =>
      simp only [runThunkRaw]
      split
      · exact h
      · exact h
  | notifyStore sid =>
      rcases hg : s.getStore sid with _ | st
      · have he : runThunkRaw env s (.notifyStore sid) = (s, none) := by
          simp only [runThunkRaw]
          rw [hg]
        rw [he]
        exact h
      · rw [runThunkRaw_notifyStore env s sid st hg]
        exact AllFresh_setStore sid _ h (h sid st hg)

theorem runThunkCaught_AllFresh (env : Env) (s : Sys) (t : Thunk)
    (h : AllFresh s) : AllFresh (runThunkCaught env s t) := by
  unfold runThunkCaught
  have h1 := runThunkRaw_AllFresh env s t h
  rcases hr : runThunkRaw env s t with ⟨s1, e⟩
  rw [hr] at h1
  match e with
  | none => exact h1
  | some (.raised tid) => exact h1
  | some (.destroyedAccess op) => exact h1

theorem flushNotifications_AllFresh (env : Env) (s : Sys)
    (h : AllFresh s) : AllFresh (flushNotifications env s) := by
  unfold flushNotifications
  have : ∀ (ts : List Thunk) (s0 : Sys), AllFresh s0 →
      AllFresh (ts.foldl (runThunkCaught env) s0) := by
    intro ts
    induction ts with
    | nil => exact fun s0 h0 => h0
    | cons t ts ih =>
        intro s0 h0
        exact ih _ (runThunkCaught_AllFresh env s0 t h0)
  exact this s.pending _ h

theorem scheduleBatch_AllFresh (env : Env) (s : Sys) (t : Thunk)
    (h : AllFresh s) : AllFresh (scheduleBatch env s t).1 := by
  unfold scheduleBatch
  split
  · exact runThunkRaw_AllFresh env s t h
  · exact h

theorem notify_AllFresh (env : Env) (s : Sys) (sid : Nat) (prev : Obj)
    (h : AllFresh s) : AllFresh (notify env s sid prev).1 := by
  unfold notify
  rcases hg : s.getStore sid with _ | st
  · exact h
  · dsimp only
    split
    · exact h
    · split
      · exact h
      · exact scheduleBatch_AllFresh env _ _
          (AllFresh_setStore sid _ h (h sid st hg))

theorem setState_AllFresh (env : Env) (s : Sys) (sid : Nat)
    (u : StateUpdater) (h : AllFresh s) :
    AllFresh (setState env s sid u).1 := by
  unfold setState
  rcases hg : s.getStore sid with _ | st
  · exact h
  · dsimp only
    split
    · exact h
    · split
      · exact h
      · split
        · exact AllFresh_setStore sid _ h (by intro q hq; cases hq)
        · exact notify_AllFresh env _ sid _
            (AllFresh_setStore sid _ h (by intro q hq; cases hq))

theorem stepClosed_AllFresh (env : Env) : StepClosed env AllFresh := by
  constructor
  · exact fun s sid u h => setState_AllFresh env s sid u h
  · intro s sid lid h
    unfold subscribeStep
    rcases hg : s.getStore sid with _ | st
    · exact h
    · dsimp only
      rcases hsub : Store.subscribe st lid with st1 | e
      · exact h
      · refine AllFresh_setStore sid _ h ?_
        unfold Store.subscribe at hsub
        split at hsub
        · cases hsub
        · cases hsub
          exact h sid st hg
  · intro s sid lid h
    unfold unsubscribeStep
    rcases hg : s.getStore sid with _ | st
    · exact h
    · exact AllFresh_setStore sid _ h (h sid st hg)
  · intro s sid selId h
    unfold selectStep
    rcases hg : s.getStore sid with _ | st
    · exact h
    · dsimp only
      rcases hsel : Store.select env st selId with e | ⟨v, st1, invoked⟩
      · exact h
      · have hfresh1 : CacheFresh st1.cache := by
          unfold Store.select at hsel
          split at hsel
          · cases hsel
          · rcases hget : st.cache.get selId with ⟨oe, c1⟩
            rw [hget] at hsel
            have hc1 : CacheFresh c1 := by
              have := CacheFresh.get_snd (h sid st hg) selId
              rw [hget] at this
              exact this
            match oe, hsel with
            | some e, hsel =>
                cases hsel
                exact hc1
            | none, hsel =>
                cases hsel
                exact CacheFresh.set_self hc1 selId _
        dsimp only
        split
        · exact AllFresh_setStore sid _ h hfresh1
        · exact AllFresh_setStore sid _ h hfresh1
  · intro s sid h
    unfold destroyStep
    rcases hg : s.getStore sid with _ | st
    · exact h
    · refine AllFresh_setStore sid _ h ?_
      unfold Store.destroy
      split
      · exact h sid st hg
      · intro q hq; cases hq
  · exact fun s h => h
  · intro s h
    unfold endBatch
    dsimp only
    split
    · exact flushNotifications_AllFresh env _ h
    · exact h
  · exact fun s t h => scheduleBatch_AllFresh env s t h

/-- C2 counterexample: invalidation is *not* lazy.  In a concrete world
whose store holds a cached selector result stamped at the current version,
a single accepted `setState` — with no intervening `select` access — leaves
the cache physically empty: the store eagerly discards the cached entry at
mutation time (`SelectorCache.invalidate` calls `cache.clear()`,
store.ts lines 55-58, invoked from `setState` line 137). -/
theorem cache_lazy_invalidation_cex :
    ((({ batchDepth := 0, pending := [],
         stores := [(0, { storeW with cache :=
           { cache := [(5, ⟨42, 0⟩)], maxSize := 50, stateVersion := 0 } })],
         events := [] } : Sys).getStore 0).map
        (fun st => st.cache.cache) = some [(5, ⟨42, 0⟩)]) ∧
    ((runCmd envW (.doSet 0 (.patch [("count", 1)]))
        { batchDepth := 0, pending := [],
          stores := [(0, { storeW with cache :=
            { cache := [(5, ⟨42, 0⟩)], maxSize := 50, stateVersion := 0 } })],
          events := [] }).1.getStore 0).map
        (fun st => st.cache.cache) = some [] ∧
    ((runCmd envW (.doSet 0 (.patch [("count", 1)]))
        { batchDepth := 0, pending := [],
          stores := [(0, { storeW with cache :=
            { cache := [(5, ⟨42, 0⟩)], maxSize := 50, stateVersion := 0 } })],
          events := [] }).1.getStore 0).map
        (fun st => st.cache.stateVersion) = some 1 := by
  refine ⟨rfl, ?_, ?_⟩ <;> decide

/-- C2 (amended): the version stamp governs the cache degenerately, because
invalidation is eager rather than lazy.  (1) An accepted mutation
immediately increments the store's version counter and clears every cached
entry — before any subsequent `select` — so staleness can never be observed
on access; `select` performs no version comparison.  (2) Consequently every
entry ever present in a store's cache is stamped with the store's current
version, and this invariant is preserved by every program over the public
surface. -/
theorem cache_eager_invalidation_stamps_current (env : Env) (s : Sys)
    (sid : Nat) (st : StoreState) (u : StateUpdater) (cs : List Cmd)
    (hst : s.getStore sid = some st)
    (hlive : st.isDestroyed = false)
    (hacc : st.equalityFn st.state (applyUpdater st.state u) = false)
    (hfresh : AllFresh s) :
    (∀ st', (runCmd env (.doSet sid u) s).1.getStore sid = some st' →
        st'.cache.cache = [] ∧
        st'.cache.stateVersion = st.cache.stateVersion + 1) ∧
    AllFresh (runCmds env cs s).1 := by
  constructor
  · intro st' h
    have := setState_accepted_cache env s sid st u hst hlive hacc st' h
    rcases this with ⟨hc, _⟩
    rw [hc]
    exact ⟨rfl, rfl⟩
  · exact runCmds_preserve env AllFresh (stepClosed_AllFresh env) cs s hfresh

/-- Witness for the amended C2 at a concrete input. -/
theorem cache_eager_invalidation_stamps_current_witness :
    sysW.getStore 0 = some storeW ∧
    storeW.equalityFn storeW.state
      (applyUpdater storeW.state (.patch [("count", 3)])) = false ∧
    ((∀ st', (runCmd envW (.doSet 0 (.patch [("count", 3)])) sysW).1.getStore 0 =
          some st' →
        st'.cache.cache = [] ∧
        st'.cache.stateVersion = storeW.cache.stateVersion + 1) ∧
      AllFresh (runCmds envW [.doSelect 0 3, .doSet 0 (.patch [("count", 9)])]
        sysW).1) :=
  ⟨rfl, by decide,
    cache_eager_invalidation_stamps_current envW sysW 0 storeW
      (.patch [("count", 3)]) [.doSelect 0 3, .doSet 0 (.patch [("count", 9)])]
      rfl rfl (by decide)
      (by
        intro sid st h
        match sid, h with
        | 0, h => cases h; intro q hq; cases hq)⟩

/-! ### C10 — `getListenerCount` after destruction -/

/-- The store `sid` is destroyed with an empty listener registry. -/
def DeadAt (sid : Nat) (s : Sys) : Prop :=
  ∀ st, s.getStore sid = some st →
    st.isDestroyed = true ∧ st.listeners = []

theorem DeadAt_setStore_other {s : Sys} (sid sid' : Nat) (st1 : StoreState)
    (h : DeadAt sid s) (hne : sid' ≠ sid) :
    DeadAt sid (s.setStore sid' st1) := by
  intro st' h'
  rw [getStore_setStore_ne _ _ _ _ hne] at h'
  exact h st' h'

theorem DeadAt_setStore_self {s : Sys} (sid : Nat) (st1 : StoreState)
    (h1 : st1.isDestroyed = true) (h2 : st1.listeners = []) :
    DeadAt sid (s.setStore sid st1) := by
  intro st' h'
  rw [getStore_setStore_self] at h'
  rcases hg : s.getStore sid with _ | st0 <;> rw [hg] at h'
  · cases h'
  · cases h'
    exact ⟨h1, h2⟩

theorem DeadAt_setStore_any {s : Sys} (sid sid' : Nat) (st1 : StoreState)
    (h : DeadAt sid s)
    (h1 : sid' = sid → st1.isDestroyed = true ∧ st1.listeners = []) :
    DeadAt sid (s.setStore sid' st1) := by
  by_cases hs : sid' = sid
  · subst hs
    exact DeadAt_setStore_self sid' st1 (h1 rfl).1 (h1 rfl).2
  · exact DeadAt_setStore_other sid sid' st1 h hs

theorem runThunkRaw_DeadAt (env : Env) (s : Sys) (t : Thunk) (sid : Nat)
    (h : DeadAt sid s) : DeadAt sid (runThunkRaw env s t).1 := by
  cases t with
  | user tid =>
      simp only [runThunkRaw]
      split
      · exact h
      · exact h
  | notifyStore sid' =>
      rcases hg : s.getStore sid' with _ | st
      · have he : runThunkRaw env s (.notifyStore sid') = (s, none) := by
          simp only [runThunkRaw]
          rw [hg]
        rw [he]
        exact h
      · rw [runThunkRaw_notifyStore env s sid' st hg]
        refine DeadAt_setStore_any sid sid' _ h ?_
        intro hs
        subst hs
        exact h st hg

theorem runThunkCaught_DeadAt (env : Env) (s : Sys) (t : Thunk) (sid : Nat)
    (h : DeadAt sid s) : DeadAt sid (runThunkCaught env s t) := by
  unfold runThunkCaught
  have h1 := runThunkRaw_DeadAt env s t sid h
  rcases hr : runThunkRaw env s t with ⟨s1, e⟩
  rw [hr] at h1
  match e with
  | none => exact h1
  | some (.raised tid) => exact h1
  | some (.destroyedAccess op) => exact h1

theorem flushNotifications_DeadAt (env : Env) (s : Sys) (sid : Nat)
    (h : DeadAt sid s) : DeadAt sid (flushNotifications env s) := by
  unfold flushNotifications
  have : ∀ (ts : List Thunk) (s0 : Sys), DeadAt sid s0 →
      DeadAt sid (ts.foldl (runThunkCaught env) s0) := by
    intro ts
    induction ts with
    | nil => exact fun s0 h0 => h0
    | cons t ts ih =>
        intro s0 h0
        exact ih _ (runThunkCaught_DeadAt env s0 t sid h0)
  exact this s.pending _ h

theorem scheduleBatch_DeadAt (env : Env) (s : Sys) (t : Thunk) (sid : Nat)
    (h : DeadAt sid s) : DeadAt sid (scheduleBatch env s t).1 := by
  unfold scheduleBatch
  split
  · exact runThunkRaw_DeadAt env s t sid h
  · exact h

theorem notify_DeadAt (env : Env) (s : Sys) (sid' : Nat) (prev : Obj)
    (sid : Nat) (h : DeadAt sid s) :
    DeadAt sid (notify env s sid' prev).1 := by
  unfold notify
  rcases hg : s.getStore sid' with _ | st
  · exact h
  · dsimp only
    split
    · exact h
    · split
      · exact h
      · refine scheduleBatch_DeadAt env _ _ sid ?_
        refine DeadAt_setStore_any sid sid' _ h ?_
        intro hs
        subst hs
        exact absurd (h st hg).1 (by simp_all)

theorem setState_DeadAt (env : Env) (s : Sys) (sid' : Nat) (u : StateUpdater)
    (sid : Nat) (h : DeadAt sid s) :
    DeadAt sid (setState env s sid' u).1 := by
  unfold setState
  rcases hg : s.getStore sid' with _ | st
  · exact h
  · dsimp only
    split
    · exact h
    · split
      · exact h
      · have hsub : DeadAt sid (s.setStore sid'
            { st with state := applyUpdater st.state u,
                      cache := st.cache.invalidate }) := by
          refine DeadAt_setStore_any sid sid' _ h ?_
          intro hs
          subst hs
          exact absurd (h st hg).1 (by simp_all)
        split
        · exact hsub
        · exact notify_DeadAt env _ sid' _ sid hsub

theorem stepClosed_DeadAt (env : Env) (sid : Nat) :
    StepClosed env (DeadAt sid) := by
  constructor
  · exact fun s sid' u h => setState_DeadAt env s sid' u sid h
  · intro s sid' lid h
    unfold subscribeStep
    rcases hg : s.getStore sid' with _ | st
    · exact h
    · dsimp only
      rcases hsub : Store.subscribe st lid with e | st1
      · exact h
      · refine DeadAt_setStore_any sid sid' _ h ?_
        intro hs
        subst hs
        unfold Store.subscribe at hsub
        split at hsub
        · cases hsub
        · exact absurd (h st hg).1 (by simp_all)
  · intro s sid' lid h
    unfold unsubscribeStep
    rcases hg : s.getStore sid' with _ | st
    · exact h
    · refine DeadAt_setStore_any sid sid' _ h ?_
      intro hs
      subst hs
      refine ⟨(h st hg).1, ?_⟩
      show st.listeners.filter _ = []
      rw [(h st hg).2]
      rfl
  · intro s sid' selId h
    unfold selectStep
    rcases hg : s.getStore sid' with _ | st
    · exact h
    · dsimp only
      rcases hsel : Store.select env st selId with e | ⟨v, st1, invoked⟩
      · exact h
      · have hd : DeadAt sid (s.setStore sid' st1) := by
          refine DeadAt_setStore_any sid sid' _ h ?_
          intro hs
          subst hs
          unfold Store.select at hsel
          split at hsel
          · cases hsel
          · exact absurd (h st hg).1 (by simp_all)
        dsimp only
        split
        · exact hd
        · exact hd
  · intro s sid' h
    unfold destroyStep
    rcases hg : s.getStore sid' with _ | st
    · exact h
    · refine DeadAt_setStore_any sid sid' _ h ?_
      intro hs
      subst hs
      unfold Store.destroy
      split
      · exact h st hg
      · exact ⟨rfl, rfl⟩
  · exact fun s h => h
  · intro s h
    unfold endBatch
    dsimp only
    split
    · exact flushNotifications_DeadAt env _ sid h
    · exact h
  · exact fun s t h => scheduleBatch_DeadAt env s t sid h

/-- C10: `getListenerCount` has no destroyed-store check — it is a total
function into `Nat`, never raising the DestroyedAccess error that
`getState`, `subscribe` and `select` raise — and after `destroy()` it
returns 0 forever: destruction clears the listener registry, subsequent
`subscribe` calls fail, and no operation of the public surface can
repopulate a destroyed store's registry (store.ts lines 172-182). -/
theorem getListenerCount_after_destroy (env : Env) (cs : List Cmd) (s : Sys)
    (sid : Nat) (st : StoreState)
    (hlive : st.isDestroyed = false)
    (hst : s.getStore sid = some (Store.destroy st)) :
    Store.getListenerCount (Store.destroy st) = 0 ∧
    ∀ st', ((runCmds env cs s).1).getStore sid = some st' →
      Store.getListenerCount st' = 0 := by
  have hdfields : (Store.destroy st).isDestroyed = true ∧
      (Store.destroy st).listeners = [] := by
    unfold Store.destroy
    rw [if_neg (by simp [hlive])]
    exact ⟨rfl, rfl⟩
  have hdead : DeadAt sid s := by
    intro st0 h0
    rw [hst] at h0
    cases h0
    exact hdfields
  constructor
  · show (Store.destroy st).listeners.length = 0
    rw [hdfields.2]
    rfl
  · intro st' h'
    have := runCmds_preserve env (DeadAt sid) (stepClosed_DeadAt env sid)
      cs s hdead st' h'
    show st'.listeners.length = 0
    rw [this.2]
    rfl

/-- Witness for C10 at a concrete input: destroy the concrete store, then
run a program that tries to subscribe, mutate, select and batch; the count
stays 0. -/
theorem getListenerCount_after_destroy_witness :
    storeW.isDestroyed = false ∧
    ({ sysW with stores := [(0, Store.destroy storeW)] } : Sys).getStore 0 =
      some (Store.destroy storeW) ∧
    (Store.getListenerCount (Store.destroy storeW) = 0 ∧
     ∀ st', ((runCmds envW
        [.doSubscribe 0 9, .doSet 0 (.patch [("count", 2)]),
         .batch [.doSet 0 (.patch [("count", 3)])], .doSelect 0 4]
        { sysW with stores := [(0, Store.destroy storeW)] }).1).getStore 0 =
          some st' →
      Store.getListenerCount st' = 0) :=
  ⟨rfl, rfl,
    getListenerCount_after_destroy envW
      [.doSubscribe 0 9, .doSet 0 (.patch [("count", 2)]),
       .batch [.doSet 0 (.patch [("count", 3)])], .doSelect 0 4]
      { sysW with stores := [(0, Store.destroy storeW)] } 0 storeW rfl rfl⟩

/-! ### C3 — notifications are delivered only when the depth is zero -/

/-- The scheduler depth recorded in a listener-delivery event (0 for every
other kind of event). -/
def notifiedDepth : Event → Nat
  | .notified _ _ _ _ d => d
  | _ => 0

/-- Every event recorded so far was delivered at depth zero. -/
def EventsAtZero (s : Sys) : Prop :=
  ∀ e ∈ s.events, notifiedDepth e = 0

theorem listenerEvents_depth_zero (env : Env) (sid : Nat) (next prev : Obj) :
    ∀ (ls : List Nat), ∀ e ∈ listenerEvents env sid ls next prev 0,
      notifiedDepth e = 0 := by
  intro ls
  induction ls with
  | nil => intro e he; cases he
  | cons l ls ih =>
      intro e he
      unfold listenerEvents at he
      rcases List.mem_cons.mp he with h | h
      · rw [h]; rfl
      · rcases List.mem_append.mp h with h | h
        · split at h
          · rw [List.mem_singleton.mp h]
            rfl
          · cases h
        · exact ih e h

theorem runThunkRaw_EventsAtZero (env : Env) (s : Sys) (t : Thunk)
    (hd : s.batchDepth = 0) (h : EventsAtZero s) :
    EventsAtZero (runThunkRaw env s t).1 := by
  cases t with
  | user tid =>
      simp only [runThunkRaw]
      split
      · exact h
      · intro e he
        rcases List.mem_append.mp he with h1 | h1
        · exact h e h1
        · rw [List.mem_singleton.mp h1]
          rfl
  | notifyStore sid =>
      rcases hg : s.getStore sid with _ | st
      · have he : runThunkRaw env s (.notifyStore sid) = (s, none) := by
          simp only [runThunkRaw]
          rw [hg]
        rw [he]
        exact h
      · rw [runThunkRaw_notifyStore env s sid st hg]
        intro e he
        rcases List.mem_append.mp he with h1 | h1
        · exact h e h1
        · rcases hp : st.notifyPrevState with _ | prev
          · rw [hp] at h1; cases h1
          · rw [hp] at h1
            rw [hd] at h1
            exact listenerEvents_depth_zero env sid st.state prev
              st.listeners e h1

theorem runThunkCaught_EventsAtZero (env : Env) (s : Sys) (t : Thunk)
    (hd : s.batchDepth = 0) (h : EventsAtZero s) :
    EventsAtZero (runThunkCaught env s t) := by
  unfold runThunkCaught
  have h1 := runThunkRaw_EventsAtZero env s t hd h
  rcases hr : runThunkRaw env s t with ⟨s1, e⟩
  rw [hr] at h1
  match e with
  | none => exact h1
  | some (.raised tid) =>
      intro ev hev
      rcases List.mem_append.mp hev with h2 | h2
      · exact h1 ev h2
      · rw [List.mem_singleton.mp h2]
        rfl
  | some (.destroyedAccess op) => exact h1

theorem flushNotifications_EventsAtZero (env : Env) (s : Sys)
    (hd : s.batchDepth = 0) (h : EventsAtZero s) :
    EventsAtZero (flushNotifications env s) := by
  unfold flushNotifications
  have : ∀ (ts : List Thunk) (s0 : Sys), s0.batchDepth = 0 → EventsAtZero s0 →
      EventsAtZero (ts.foldl (runThunkCaught env) s0) := by
    intro ts
    induction ts with
    | nil => exact fun s0 _ h0 => h0
    | cons t ts ih =>
        intro s0 hd0 h0
        exact ih _ ((runThunkCaught_batchDepth env s0 t).trans hd0)
          (runThunkCaught_EventsAtZero env s0 t hd0 h0)
  exact this s.pending _ hd h

theorem scheduleBatch_EventsAtZero (env : Env) (s : Sys) (t : Thunk)
    (h : EventsAtZero s) : EventsAtZero (scheduleBatch env s t).1 := by
  unfold scheduleBatch
  split
  · exact runThunkRaw_EventsAtZero env s t (by simp_all) h
  · exact h

theorem notify_EventsAtZero (env : Env) (s : Sys) (sid : Nat) (prev : Obj)
    (h : EventsAtZero s) : EventsAtZero (notify env s sid prev).1 := by
  unfold notify
  rcases hg : s.getStore sid with _ | st
  · exact h
  · dsimp only
    split
    · exact h
    · split
      · exact h
      · exact scheduleBatch_EventsAtZero env _ _ h

theorem setState_EventsAtZero (env : Env) (s : Sys) (sid : Nat)
    (u : StateUpdater) (h : EventsAtZero s) :
    EventsAtZero (setState env s sid u).1 := by
  unfold setState
  rcases hg : s.getStore sid with _ | st
  · exact h
  · dsimp only
    split
    · intro e he
      rcases List.mem_append.mp he with h1 | h1
      · exact h e h1
      · rw [List.mem_singleton.mp h1]
        rfl
    · split
      · exact h
      · split
        · exact h
        · exact notify_EventsAtZero env _ sid _ h

theorem stepClosed_EventsAtZero (env : Env) : StepClosed env EventsAtZero := by
  constructor
  · exact fun s sid u h => setState_EventsAtZero env s sid u h
  · intro s sid lid h
    unfold subscribeStep
    rcases hg : s.getStore sid with _ | st
    · exact h
    · dsimp only
      rcases hsub : Store.subscribe st lid with e | st1
      · exact h
      · exact h
  · intro s sid lid h
    unfold unsubscribeStep
    rcases hg : s.getStore sid with _ | st
    · exact h
    · exact h
  · intro s sid selId h
    unfold selectStep
    rcases hg : s.getStore sid with _ | st
    · exact h
    · dsimp only
      rcases hsel : Store.select env st selId with e | ⟨v, st1, invoked⟩
      · exact h
      · dsimp only
        split
        · intro e he
          rcases List.mem_append.mp he with h1 | h1
          · exact h e h1
          · rw [List.mem_singleton.mp h1]
            rfl
        · exact h
  · intro s sid h
    unfold destroyStep
    rcases hg : s.getStore sid with _ | st
    · exact h
    · exact h
  · exact fun s h => h
  · intro s h
    unfold endBatch
    dsimp only
    split
    · refine flushNotifications_EventsAtZero env _ ?_ h
      simp_all
    · exact h
  · exact fun s t h => scheduleBatch_EventsAtZero env s t h

/-- C3: while the process-wide transaction depth is positive, no store
delivers any listener notification.  (1) `isBatching` reports exactly that
the shared depth counter is positive.  (2) A flush closure handed to the
scheduler while the depth is positive is queued (deduplicated, in order):
no event of any store is emitted by the call.  (3) Every listener-delivery
event a program ever records carries the scheduler depth at delivery time,
and that depth is always zero — deliveries happen only once the outermost
`batch`/`batchAsync` boundary has closed (batch.ts lines 475-501). -/
theorem no_delivery_while_batching (env : Env) (c : Cmd) (s : Sys)
    (h : ∀ e ∈ s.events, notifiedDepth e = 0) :
    (isBatching s = true ↔ 0 < s.batchDepth) ∧
    (0 < s.batchDepth → ∀ t : Thunk,
      (scheduleBatch env s t).1.events = s.events ∧
      (scheduleBatch env s t).1.pending =
        (if t ∈ s.pending then s.pending else s.pending ++ [t])) ∧
    ∀ e ∈ (runCmd env c s).1.events, notifiedDepth e = 0 := by
  refine ⟨?_, ?_, ?_⟩
  · unfold isBatching
    simp
  · intro hb t
    rw [scheduleBatch_queued env s t (by omega)]
    exact ⟨rfl, rfl⟩
  · exact runCmd_preserve env EventsAtZero (stepClosed_EventsAtZero env) c s h

/-- Witness for C3 at a concrete input: a batched program on the concrete
world, starting from an empty trace, and a queued thunk at depth 1. -/
theorem no_delivery_while_batching_witness :
    (∀ e ∈ sysW.events, notifiedDepth e = 0) ∧
    (∀ e ∈ (runCmd envW
        (.batch [.doSet 0 (.patch [("count", 1)]),
                 .batch [.doSet 0 (.patch [("count", 2)])]])
        sysW).1.events, notifiedDepth e = 0) ∧
    (0 < ({ sysW with batchDepth := 1 } : Sys).batchDepth →
      ∀ t : Thunk,
        (scheduleBatch envW { sysW with batchDepth := 1 } t).1.events =
          ({ sysW with batchDepth := 1 } : Sys).events ∧
        (scheduleBatch envW { sysW with batchDepth := 1 } t).1.pending =
          (if t ∈ ({ sysW with batchDepth := 1 } : Sys).pending then
            ({ sysW with batchDepth := 1 } : Sys).pending
          else ({ sysW with batchDepth := 1 } : Sys).pending ++ [t])) :=
  by
  refine ⟨fun e he => (nomatch he), ?_, ?_⟩
  · exact (no_delivery_while_batching envW
      (.batch [.doSet 0 (.patch [("count", 1)]),
               .batch [.doSet 0 (.patch [("count", 2)])]])
      sysW (fun e he => nomatch he)).2.2
  · exact (no_delivery_while_batching envW (.throwRaise 0)
      { sysW with batchDepth := 1 } (fun e he => nomatch he)).2.1

/-! ### C9 — listener exceptions are caught per-listener -/

/-- Is this event a listener invocation? -/
def isNotified : Event → Bool
  | .notified _ _ _ _ _ => true
  | _ => false

/-- Projecting the delivery events out of a flush: every registered
listener, in registration order, receives exactly one invocation with the
same `(next, prev)` pair, whatever the throwing behaviour of listeners. -/
theorem listenerEvents_filter_notified (env : Env) (sid : Nat)
    (next prev : Obj) (d : Nat) :
    ∀ ls : List Nat,
      (listenerEvents env sid ls next prev d).filter isNotified =
        ls.map (fun l => .notified sid l next prev d) := by
  intro ls
  induction ls with
  | nil => rfl
  | cons l ls ih =>
      unfold listenerEvents
      split <;> simp [isNotified, List.filter_cons, List.filter_append, ih]

/-- C9: for an unbatched accepted `setState` on a live store, with an
arbitrary set of listeners any of which may throw: the call returns
normally (no exception reaches the `setState` caller), and the flush
invokes every registered listener, in registration order, exactly once
with the same `(next, prev)` pair; a throwing listener only adds a caught,
logged `listenerError` event immediately after its own invocation and never
prevents the remaining listeners from running (store.ts lines 76-84). -/
theorem listener_errors_isolated (env : Env) (s : Sys) (sid : Nat)
    (st : StoreState) (u : StateUpdater)
    (hst : s.getStore sid = some st)
    (hlive : st.isDestroyed = false)
    (hnp : st.hasPendingNotify = false)
    (hd : s.batchDepth = 0)
    (hacc : st.equalityFn st.state (applyUpdater st.state u) = false) :
    runCmd env (.doSet sid u) s =
      ({ s.setStore sid
          { st with state := applyUpdater st.state u,
                    cache := st.cache.invalidate,
                    hasPendingNotify := false,
                    notifyPrevState := none } with
         events := s.events ++
           listenerEvents env sid st.listeners (applyUpdater st.state u)
             st.state 0 }, none) ∧
    (listenerEvents env sid st.listeners (applyUpdater st.state u)
        st.state 0).filter isNotified =
      st.listeners.map
        (fun l => .notified sid l (applyUpdater st.state u) st.state 0) := by
  refine ⟨?_, listenerEvents_filter_notified env sid _ _ 0 st.listeners⟩
  show setState env s sid u = _
  rw [setState_accepted_fresh env s sid st u hst hlive hnp hacc]
  have hst1 : (s.setStore sid
      { st with state := applyUpdater st.state u,
                cache := st.cache.invalidate }).getStore sid =
      some { st with state := applyUpdater st.state u,
                     cache := st.cache.invalidate } := by
    simp [hst]
  rw [notify_fresh env _ sid _ st.state hst1 hlive hnp]
  have hd2 : ((s.setStore sid
      { st with state := applyUpdater st.state u,
                cache := st.cache.invalidate }).setStore sid
      { st with state := applyUpdater st.state u,
                cache := st.cache.invalidate,
                hasPendingNotify := true,
                notifyPrevState := some st.state }).batchDepth = 0 := hd
  rw [scheduleBatch_immediate env _ _ hd2]
  have hst2 : ((s.setStore sid
      { st with state := applyUpdater st.state u,
                cache := st.cache.invalidate }).setStore sid
      { st with state := applyUpdater st.state u,
                cache := st.cache.invalidate,
                hasPendingNotify := true,
                notifyPrevState := some st.state }).getStore sid =
      some { st with state := applyUpdater st.state u,
                     cache := st.cache.invalidate,
                     hasPendingNotify := true,
                     notifyPrevState := some st.state } := by
    simp [hst]
  rw [runThunkRaw_notifyStore env _ sid _ hst2]
  rw [setStore_setStore, setStore_setStore]
  rw [hd2]
  rfl

/-- Witness for C9 at a concrete input: the concrete store has listeners 7
and 8 and listener 8 throws under `envW`; both are invoked with the same
pair. -/
theorem listener_errors_isolated_witness :
    sysW.getStore 0 = some storeW ∧
    envW.listenerThrows 8 = true ∧
    runCmd envW (.doSet 0 (.patch [("count", 1)])) sysW =
      ({ sysW.setStore 0
          { storeW with state := applyUpdater storeW.state
                          (.patch [("count", 1)]),
                        cache := storeW.cache.invalidate,
                        hasPendingNotify := false,
                        notifyPrevState := none } with
         events := sysW.events ++
           listenerEvents envW 0 storeW.listeners
             (applyUpdater storeW.state (.patch [("count", 1)]))
             storeW.state 0 }, none) ∧
    (listenerEvents envW 0 storeW.listeners
        (applyUpdater storeW.state (.patch [("count", 1)]))
        storeW.state 0).filter isNotified =
      storeW.listeners.map
        (fun l => .notified 0 l
          (applyUpdater storeW.state (.patch [("count", 1)]))
          storeW.state 0) := by
  refine ⟨rfl, rfl, ?_, ?_⟩
  · exact (listener_errors_isolated envW sysW 0 storeW
      (.patch [("count", 1)]) rfl rfl rfl rfl (by decide)).1
  · exact (listener_errors_isolated envW sysW 0 storeW
      (.patch [("count", 1)]) rfl rfl rfl rfl (by decide)).2

/-! ### C1 — N batched mutations, one notification -/

/-- The state after a sequence of `setState` updaters has been applied. -/
def applyAll : Obj → List StateUpdater → Obj
  | o, [] => o
  | o, u :: us => applyAll (applyUpdater o u) us

/-- Every updater in the sequence is accepted (non-no-op) by the configured
equality function, each judged against the state its predecessors left. -/
def allAccepted (eqf : Obj → Obj → Bool) : Obj → List StateUpdater → Bool
  | _, [] => true
  | o, u :: us =>
      !eqf o (applyUpdater o u) && allAccepted eqf (applyUpdater o u) us

/-- `n` successive cache invalidations. -/
def SelectorCache.invalidateN (c : SelectorCache) : Nat → SelectorCache
  | 0 => c
  | n + 1 => SelectorCache.invalidateN c.invalidate n

@[simp]
theorem getStore_startBatch (s : Sys) (sid : Nat) :
    (startBatch s).getStore sid = s.getStore sid := rfl

theorem setStore_pending_update (s : Sys) (P : List Thunk) (sid : Nat)
    (st : StoreState) :
    ({ s with pending := P } : Sys).setStore sid st =
      { s.setStore sid st with pending := P } := rfl

/-- Inside an open window (`hasPendingNotify` already set), a run of
accepted `setState` calls only advances the live snapshot and re-invalidates
the cache: no event is emitted, nothing is scheduled, and the captured
window-start snapshot is untouched. -/
theorem runCmds_setStates_absorb (env : Env) (sid : Nat) :
    ∀ (us : List StateUpdater) (s : Sys) (st : StoreState),
      s.getStore sid = some st →
      st.isDestroyed = false →
      st.hasPendingNotify = true →
      allAccepted st.equalityFn st.state us = true →
      runCmds env (us.map (Cmd.doSet sid)) s =
        (if us.isEmpty then s
         else s.setStore sid
           { st with state := applyAll st.state us,
                     cache := st.cache.invalidateN us.length }, none)
  | [], s, st, hst, hlive, hp, hacc => by
      simp [runCmds]
  | u :: us', s, st, hst, hlive, hp, hacc => by
      have hs := hacc
      unfold allAccepted at hs
      rw [Bool.and_eq_true] at hs
      have hacc1 : st.equalityFn st.state (applyUpdater st.state u) = false := by
        simpa using hs.1
      have hacc2 : allAccepted st.equalityFn (applyUpdater st.state u) us' =
          true := hs.2
      have hstep := setState_accepted_pending env s sid st u hst hlive hp hacc1
      have hst1 : (s.setStore sid
          { st with state := applyUpdater st.state u,
                    cache := st.cache.invalidate }).getStore sid =
          some { st with state := applyUpdater st.state u,
                         cache := st.cache.invalidate } := by
        simp [hst]
      have hrec := runCmds_setStates_absorb env sid us'
        (s.setStore sid
          { st with state := applyUpdater st.state u,
                    cache := st.cache.invalidate })
        { st with state := applyUpdater st.state u,
                  cache := st.cache.invalidate }
        hst1 hlive hp hacc2
      show runCmds env (Cmd.doSet sid u :: us'.map (Cmd.doSet sid)) s = _
      unfold runCmds
      rw [show runCmd env (.doSet sid u) s = setState env s sid u from rfl,
          hstep]
      show runCmds env (us'.map (Cmd.doSet sid)) _ = _
      rw [hrec]
      cases us' with
      | nil => rfl
      | cons v vs =>
          simp only [List.isEmpty_cons, if_false, Bool.false_eq_true]
          rw [setStore_setStore]
          rfl

/-- C1: for every store and every burst of `N ≥ 1` accepted (non-no-op)
`setState` calls performed inside a single outermost `batch()` call, the
call returns normally and exactly one notification is delivered, at the
moment the batch closes: the trace gains one flush block in which every
registered listener is invoked exactly once, in registration order, with
the pair `(state after the Nth call, state before the 1st call)` — the
intermediate snapshots are never delivered — and afterwards `getState()`
returns the state after the Nth call, the queue is drained, and the store's
pending-flush flag is clear (store.ts lines 86-143, batch.ts lines
496-523). -/
theorem batch_coalesces_to_one_notification (env : Env) (s : Sys) (sid : Nat)
    (st : StoreState) (u : StateUpdater) (us : List StateUpdater)
    (hst : s.getStore sid = some st)
    (hlive : st.isDestroyed = false)
    (hnp : st.hasPendingNotify = false)
    (hd : s.batchDepth = 0)
    (hpend : s.pending = [])
    (hacc : allAccepted st.equalityFn st.state (u :: us) = true) :
    runCmd env (.batch ((u :: us).map (Cmd.doSet sid))) s =
      ({ s.setStore sid
          { st with state := applyAll st.state (u :: us),
                    cache := st.cache.invalidateN (u :: us).length,
                    hasPendingNotify := false,
                    notifyPrevState := none } with
         pending := [],
         events := s.events ++
           listenerEvents env sid st.listeners (applyAll st.state (u :: us))
             st.state 0 }, none) ∧
    (listenerEvents env sid st.listeners (applyAll st.state (u :: us))
        st.state 0).filter isNotified =
      st.listeners.map (fun l =>
        .notified sid l (applyAll st.state (u :: us)) st.state 0) ∧
    ∀ stF, (runCmd env (.batch ((u :: us).map (Cmd.doSet sid))) s).1.getStore
        sid = some stF →
      Store.getState stF = .ok (applyAll st.state (u :: us)) := by
  have hs0 := hacc
  unfold allAccepted at hs0
  rw [Bool.and_eq_true] at hs0
  have hacc1 : st.equalityFn st.state (applyUpdater st.state u) = false := by
    simpa using hs0.1
  have hacc2 : allAccepted st.equalityFn (applyUpdater st.state u) us =
      true := hs0.2
  have hstS : (startBatch s).getStore sid = some st := hst
  have hA : runCmd env (.doSet sid u) (startBatch s) =
      ({ (startBatch s).setStore sid
          { st with state := applyUpdater st.state u,
                    cache := st.cache.invalidate,
                    hasPendingNotify := true,
                    notifyPrevState := some st.state } with
         pending := [.notifyStore sid] }, none) := by
    show setState env (startBatch s) sid u = _
    rw [setState_accepted_fresh env (startBatch s) sid st u hstS hlive hnp
      hacc1]
    have hst1 : ((startBatch s).setStore sid
        { st with state := applyUpdater st.state u,
                  cache := st.cache.invalidate }).getStore sid =
        some { st with state := applyUpdater st.state u,
                       cache := st.cache.invalidate } := by
      simp [hst]
    rw [notify_fresh env _ sid _ st.state hst1 hlive hnp]
    rw [scheduleBatch_queued env _ _ (by simp [startBatch])]
    rw [setStore_setStore]
    have hpend2 : (((startBatch s).setStore sid
        { st with state := applyUpdater st.state u,
                  cache := st.cache.invalidate,
                  hasPendingNotify := true,
                  notifyPrevState := some st.state }) : Sys).pending = [] :=
      hpend
    rw [hpend2]
    simp
  have hstA : ({ (startBatch s).setStore sid
      { st with state := applyUpdater st.state u,
                cache := st.cache.invalidate,
                hasPendingNotify := true,
                notifyPrevState := some st.state } with
      pending := [.notifyStore sid] } : Sys).getStore sid =
      some { st with state := applyUpdater st.state u,
                     cache := st.cache.invalidate,
                     hasPendingNotify := true,
                     notifyPrevState := some st.state } := by
    show storesGet (storesSet s.stores sid _) sid = some _
    rw [storesGet_storesSet_self,
        show storesGet s.stores sid = some st from hst]
    rfl
  have habs := runCmds_setStates_absorb env sid us _ _ hstA hlive rfl hacc2
  have hB : runCmds env (us.map (Cmd.doSet sid))
      { (startBatch s).setStore sid
          { st with state := applyUpdater st.state u,
                    cache := st.cache.invalidate,
                    hasPendingNotify := true,
                    notifyPrevState := some st.state } with
        pending := [.notifyStore sid] } =
      ({ (startBatch s).setStore sid
          { st with state := applyAll st.state (u :: us),
                    cache := st.cache.invalidateN (u :: us).length,
                    hasPendingNotify := true,
                    notifyPrevState := some st.state } with
        pending := [.notifyStore sid] }, none) := by
    rw [habs]
    cases us with
    | nil => rfl
    | cons v vs =>
        simp only [List.isEmpty_cons, Bool.false_eq_true, if_false]
        rw [setStore_pending_update, setStore_setStore]
        rfl
  have hbody : runCmds env ((u :: us).map (Cmd.doSet sid)) (startBatch s) =
      ({ (startBatch s).setStore sid
          { st with state := applyAll st.state (u :: us),
                    cache := st.cache.invalidateN (u :: us).length,
                    hasPendingNotify := true,
                    notifyPrevState := some st.state } with
        pending := [.notifyStore sid] }, none) := by
    show runCmds env (Cmd.doSet sid u :: us.map (Cmd.doSet sid))
      (startBatch s) = _
    unfold runCmds
    rw [hA]
    exact hB
  have hstM : ({ (startBatch s).setStore sid
      { st with state := applyAll st.state (u :: us),
                cache := st.cache.invalidateN (u :: us).length,
                hasPendingNotify := true,
                notifyPrevState := some st.state } with
      batchDepth := s.batchDepth + 1 - 1, pending := ([] : List Thunk) } :
        Sys).getStore sid =
      some { st with state := applyAll st.state (u :: us),
                     cache := st.cache.invalidateN (u :: us).length,
                     hasPendingNotify := true,
                     notifyPrevState := some st.state } := by
    show storesGet (storesSet s.stores sid _) sid = some _
    rw [storesGet_storesSet_self,
        show storesGet s.stores sid = some st from hst]
    rfl
  have h2 : endBatch env
      { (startBatch s).setStore sid
          { st with state := applyAll st.state (u :: us),
                    cache := st.cache.invalidateN (u :: us).length,
                    hasPendingNotify := true,
                    notifyPrevState := some st.state } with
        pending := [.notifyStore sid] } =
      runThunkCaught env
        { (startBatch s).setStore sid
            { st with state := applyAll st.state (u :: us),
                      cache := st.cache.invalidateN (u :: us).length,
                      hasPendingNotify := true,
                      notifyPrevState := some st.state } with
          batchDepth := s.batchDepth + 1 - 1, pending := ([] : List Thunk) }
        (.notifyStore sid) := by
    unfold endBatch
    dsimp only
    rw [if_pos (by simp [startBatch, hd])]
    unfold flushNotifications
    dsimp only
    simp only [List.foldl_cons, List.foldl_nil]
    rfl
  have h4 : runThunkCaught env
      { (startBatch s).setStore sid
          { st with state := applyAll st.state (u :: us),
                    cache := st.cache.invalidateN (u :: us).length,
                    hasPendingNotify := true,
                    notifyPrevState := some st.state } with
        batchDepth := s.batchDepth + 1 - 1, pending := ([] : List Thunk) }
      (.notifyStore sid) =
      ({ s.setStore sid
          { st with state := applyAll st.state (u :: us),
                    cache := st.cache.invalidateN (u :: us).length,
                    hasPendingNotify := false,
                    notifyPrevState := none } with
         pending := [],
         events := s.events ++
           listenerEvents env sid st.listeners (applyAll st.state (u :: us))
             st.state 0 } : Sys) := by
    unfold runThunkCaught
    rw [runThunkRaw_notifyStore env _ sid _ hstM]
    dsimp only
    apply Sys.ext
    · rfl
    · rfl
    · show storesSet (storesSet s.stores sid _) sid _ = storesSet s.stores sid _
      rw [storesSet_storesSet]
    · show s.events ++ listenerEvents env sid st.listeners
          (applyAll st.state (u :: us)) st.state (s.batchDepth + 1 - 1) =
        s.events ++ listenerEvents env sid st.listeners
          (applyAll st.state (u :: us)) st.state 0
      rw [Nat.add_sub_cancel, hd]
  have hmain : runCmd env (.batch ((u :: us).map (Cmd.doSet sid))) s =
      ({ s.setStore sid
          { st with state := applyAll st.state (u :: us),
                    cache := st.cache.invalidateN (u :: us).length,
                    hasPendingNotify := false,
                    notifyPrevState := none } with
         pending := [],
         events := s.events ++
           listenerEvents env sid st.listeners (applyAll st.state (u :: us))
             st.state 0 }, none) := by
    have h1 : runCmd env (.batch ((u :: us).map (Cmd.doSet sid))) s =
        (endBatch env
          { (startBatch s).setStore sid
              { st with state := applyAll st.state (u :: us),
                        cache := st.cache.invalidateN (u :: us).length,
                        hasPendingNotify := true,
                        notifyPrevState := some st.state } with
            pending := [.notifyStore sid] }, none) := by
      unfold runCmd
      rw [hbody]
    rw [h1, h2, h4]
  refine ⟨hmain, listenerEvents_filter_notified env sid _ _ 0 st.listeners, ?_⟩
  intro stF hF
  rw [hmain] at hF
  have hF2 : storesGet (storesSet s.stores sid
      { st with state := applyAll st.state (u :: us),
                cache := st.cache.invalidateN (u :: us).length,
                hasPendingNotify := false,
                notifyPrevState := none }) sid = some stF := hF
  rw [storesGet_storesSet_self,
      show storesGet s.stores sid = some st from hst,
      Option.map_some'] at hF2
  cases hF2
  unfold Store.getState
  rw [if_neg (by simp [hlive])]

/-- Witness for C1 at a concrete input, mirroring the repository's own
test: three accepted `setState` calls batched on the store holding
`{ count: 0 }` produce a single flush. -/
theorem batch_coalesces_to_one_notification_witness :
    sysW.getStore 0 = some storeW ∧
    allAccepted storeW.equalityFn storeW.state
      [StateUpdater.patch [("count", 1)], .patch [("count", 2)],
       .patch [("count", 3)]] = true ∧
    runCmd envW (.batch ([StateUpdater.patch [("count", 1)],
        .patch [("count", 2)], .patch [("count", 3)]].map (Cmd.doSet 0)))
        sysW =
      ({ sysW.setStore 0
          { storeW with
              state := applyAll storeW.state [.patch [("count", 1)],
                .patch [("count", 2)], .patch [("count", 3)]],
              cache := storeW.cache.invalidateN 3,
              hasPendingNotify := false,
              notifyPrevState := none } with
         pending := [],
         events := sysW.events ++
           listenerEvents envW 0 storeW.listeners
             (applyAll storeW.state [.patch [("count", 1)],
               .patch [("count", 2)], .patch [("count", 3)]])
             storeW.state 0 }, none) := by
  refine ⟨rfl, by decide, ?_⟩
  exact (batch_coalesces_to_one_notification envW sysW 0 storeW
    (.patch [("count", 1)]) [.patch [("count", 2)], .patch [("count", 3)]]
    rfl rfl rfl rfl rfl (by decide)).1

/-! ### C8 — scoped release of the depth, and per-thunk failure isolation -/

theorem runThunkCaught_user_of_throws (env : Env) (s : Sys) (t : Nat)
    (h : env.thunkThrows t = true) :
    runThunkCaught env s (.user t) =
      { s with events := s.events ++ [.thunkError t] } := by
  unfold runThunkCaught
  have hr : runThunkRaw env s (.user t) = (s, some (.raised t)) := by
    simp only [runThunkRaw]
    rw [if_pos h]
  rw [hr]

theorem runThunkCaught_user_of_ok (env : Env) (s : Sys) (t : Nat)
    (h : env.thunkThrows t = false) :
    runThunkCaught env s (.user t) =
      { s with events := s.events ++ [.userThunkRan t] } := by
  unfold runThunkCaught
  have hr : runThunkRaw env s (.user t) =
      ({ s with events := s.events ++ [.userThunkRan t] }, none) := by
    simp only [runThunkRaw]
    rw [if_neg (by simp [h])]
  rw [hr]

/-- C8: (1) for every batch body — including one that throws — the
transaction depth is restored before the exception reaches the caller:
`endBatch` runs on both the normal and the throwing path (the scoped
release of batch.ts lines 507-523).  (2) Concretely, a batch body that
queues a throwing thunk `t1`, then a well-behaved thunk `t2`, and then
throws: the depth is back to zero, the queued thunks still run when the
depth reaches zero, the exception of `t1` is caught and logged per-thunk
without preventing `t2` from running (batch.ts lines 459-469), and only
afterwards does the body's own exception propagate to the caller. -/
theorem batch_scoped_release_and_flush_isolation (env : Env) (s : Sys)
    (t1 t2 code : Nat)
    (hd : s.batchDepth = 0)
    (hp : s.pending = [])
    (ht1 : env.thunkThrows t1 = true)
    (ht2 : env.thunkThrows t2 = false)
    (hne : t1 ≠ t2) :
    (∀ body : List Cmd,
      ((runCmd env (.batch body) s).1).batchDepth = s.batchDepth) ∧
    runCmd env (.batch [.scheduleUser t1, .scheduleUser t2,
        .throwRaise code]) s =
      ({ s with events := s.events ++ [.thunkError t1, .userThunkRan t2] },
       some (.raised code)) := by
  constructor
  · exact fun body => runCmd_batchDepth env (.batch body) s
  · have hq1 : runCmd env (.scheduleUser t1) (startBatch s) =
        ({ startBatch s with pending := [Thunk.user t1] }, none) := by
      show scheduleBatch env (startBatch s) (.user t1) = _
      rw [scheduleBatch_queued env _ _ (by simp [startBatch])]
      rw [show (startBatch s).pending = [] from hp]
      simp
    have hq2 : runCmd env (.scheduleUser t2)
        ({ startBatch s with pending := [Thunk.user t1] }) =
        ({ startBatch s with pending := [Thunk.user t1, Thunk.user t2] },
         none) := by
      show scheduleBatch env _ (.user t2) = _
      rw [scheduleBatch_queued env _ _ (by simp [startBatch])]
      simp [Ne.symm hne]
    have hbody : runCmds env
        [.scheduleUser t1, .scheduleUser t2, .throwRaise code]
        (startBatch s) =
        ({ startBatch s with pending := [Thunk.user t1, Thunk.user t2] },
         some (.raised code)) := by
      show runCmds env (Cmd.scheduleUser t1 ::
        [Cmd.scheduleUser t2, Cmd.throwRaise code]) (startBatch s) = _
      unfold runCmds
      rw [hq1]
      show runCmds env (Cmd.scheduleUser t2 :: [Cmd.throwRaise code]) _ = _
      unfold runCmds
      rw [hq2]
      rfl
    have hflush : endBatch env
        ({ startBatch s with pending := [Thunk.user t1, Thunk.user t2] }) =
        { s with events := s.events ++ [.thunkError t1, .userThunkRan t2] }
        := by
      unfold endBatch
      dsimp only
      rw [if_pos (by simp [startBatch, hd])]
      unfold flushNotifications
      dsimp only
      simp only [List.foldl_cons, List.foldl_nil]
      rw [runThunkCaught_user_of_throws env _ t1 ht1,
          runThunkCaught_user_of_ok env _ t2 ht2]
      apply Sys.ext
      · rfl
      · exact hp.symm
      · rfl
      · show (s.events ++ [Event.thunkError t1]) ++ [Event.userThunkRan t2] =
          s.events ++ [Event.thunkError t1, Event.userThunkRan t2]
        simp
    unfold runCmd
    rw [hbody]
    show (endBatch env _, some (Err.raised code)) = _
    rw [hflush]

/-- Witness for C8 at a concrete input: under `envW`, user thunk 1 throws
and user thunk 2 does not. -/
theorem batch_scoped_release_and_flush_isolation_witness :
    sysW.batchDepth = 0 ∧
    envW.thunkThrows 1 = true ∧
    envW.thunkThrows 2 = false ∧
    ((∀ body : List Cmd,
        ((runCmd envW (.batch body) sysW).1).batchDepth = sysW.batchDepth) ∧
      runCmd envW (.batch [.scheduleUser 1, .scheduleUser 2,
          .throwRaise 9]) sysW =
        ({ sysW with events := sysW.events ++
            [.thunkError 1, .userThunkRan 2] }, some (.raised 9))) :=
  ⟨rfl, rfl, rfl,
    batch_scoped_release_and_flush_isolation envW sysW 1 2 9
      rfl rfl rfl rfl (by decide)⟩

end Least
